import Mathlib

/-!
Verification development for the HIPRT path tracer.

Shallow embedding of the per-pixel path-tracing kernel
(src/Device/kernels/PathTracerKernel.h), the Cook-Torrance BSDF
(src/Device/includes/CookTorrance.h) and the host-side renderer state
transitions (src/Renderer/GPURenderer.cpp).

Modelling conventions:
* 32-bit floats are modelled as exact rationals (`ℚ`); rational division is
  total with `x / 0 = 0`.
* `unsigned int` arithmetic is modelled as `ℕ` with explicit `% 2^32`
  where the source can wrap.
* GPU buffers are modelled as total functions from the linear pixel index.
* Code of the repository that is included by the kernel but is not part of
  the analysed sources (the adaptive-sampling controller, the bounce loop
  with ray tracing and light sampling, `hippt::` math helpers) is modelled
  from the specification; each such definition carries a doc comment
  starting with `Modelled from the spec:`.
-/

/-- A three-channel color of 32-bit floats, modelled with exact rationals
(`ColorRGB32F` of the current sources; the older BSDF file spells the same
type `ColorRGB`). -/
@[ext] structure ColorRGB32F where
  r : ℚ
  g : ℚ
  b : ℚ
deriving DecidableEq, Repr

/-- In CookTorrance.h the same 3-float color type is named `ColorRGB`. -/
abbrev ColorRGB := ColorRGB32F

instance : Zero ColorRGB32F := ⟨⟨0, 0, 0⟩⟩

instance : Add ColorRGB32F := ⟨fun c d => ⟨c.r + d.r, c.g + d.g, c.b + d.b⟩⟩

instance : Sub ColorRGB32F := ⟨fun c d => ⟨c.r - d.r, c.g - d.g, c.b - d.b⟩⟩

instance : Mul ColorRGB32F := ⟨fun c d => ⟨c.r * d.r, c.g * d.g, c.b * d.b⟩⟩

/-- Componentwise color-times-float (`ColorRGB32F * float` in the sources). -/
def ColorRGB32F.scale (c : ColorRGB32F) (q : ℚ) : ColorRGB32F := ⟨c.r * q, c.g * q, c.b * q⟩

/-- Componentwise color-divided-by-float (`ColorRGB32F / float`). -/
def ColorRGB32F.divQ (c : ColorRGB32F) (q : ℚ) : ColorRGB32F := ⟨c.r / q, c.g / q, c.b / q⟩

instance : HMul ColorRGB32F ℚ ColorRGB32F := ⟨ColorRGB32F.scale⟩

instance : HMul ℚ ColorRGB32F ColorRGB32F := ⟨fun q c => ⟨q * c.r, q * c.g, q * c.b⟩⟩

instance : HDiv ColorRGB32F ℚ ColorRGB32F := ⟨ColorRGB32F.divQ⟩

theorem ColorRGB32F.zero_def : (0 : ColorRGB32F) = ⟨0, 0, 0⟩ := rfl

@[simp] theorem ColorRGB32F.r_zero : (0 : ColorRGB32F).r = 0 := rfl

@[simp] theorem ColorRGB32F.g_zero : (0 : ColorRGB32F).g = 0 := rfl

@[simp] theorem ColorRGB32F.b_zero : (0 : ColorRGB32F).b = 0 := rfl

@[simp] theorem ColorRGB32F.r_add (c d : ColorRGB32F) : (c + d).r = c.r + d.r := rfl

@[simp] theorem ColorRGB32F.g_add (c d : ColorRGB32F) : (c + d).g = c.g + d.g := rfl

@[simp] theorem ColorRGB32F.b_add (c d : ColorRGB32F) : (c + d).b = c.b + d.b := rfl

@[simp] theorem ColorRGB32F.r_mulQ (c : ColorRGB32F) (q : ℚ) : (c * q).r = c.r * q := rfl

@[simp] theorem ColorRGB32F.g_mulQ (c : ColorRGB32F) (q : ℚ) : (c * q).g = c.g * q := rfl

@[simp] theorem ColorRGB32F.b_mulQ (c : ColorRGB32F) (q : ℚ) : (c * q).b = c.b * q := rfl

@[simp] theorem ColorRGB32F.r_divQ (c : ColorRGB32F) (q : ℚ) : (c / q).r = c.r / q := rfl

@[simp] theorem ColorRGB32F.g_divQ (c : ColorRGB32F) (q : ℚ) : (c / q).g = c.g / q := rfl

@[simp] theorem ColorRGB32F.b_divQ (c : ColorRGB32F) (q : ℚ) : (c / q).b = c.b / q := rfl

/-- Sum of a list of colors (componentwise). -/
def sumColors : List ColorRGB32F → ColorRGB32F
  | [] => 0
  | c :: rest => c + sumColors rest

@[simp] theorem sumColors_nil : sumColors [] = 0 := rfl

@[simp] theorem sumColors_cons (c : ColorRGB32F) (l : List ColorRGB32F) :
    sumColors (c :: l) = c + sumColors l := rfl

theorem sumColors_append (l₁ l₂ : List ColorRGB32F) :
    sumColors (l₁ ++ l₂) = sumColors l₁ + sumColors l₂ := by
  induction l₁ with
  | nil => simp [sumColors]; ext <;> simp
  | cons c rest ih => simp [sumColors, ih]; ext <;> simp <;> ring

/-- The 3-float vector type `float3`, modelled with exact rationals. -/
@[ext] structure Float3 where
  x : ℚ
  y : ℚ
  z : ℚ
deriving DecidableEq, Repr

instance : Zero Float3 := ⟨⟨0, 0, 0⟩⟩

instance : Add Float3 := ⟨fun v w => ⟨v.x + w.x, v.y + w.y, v.z + w.z⟩⟩

/-- Componentwise vector-times-float (`float3 * float` in the sources). -/
def Float3.scale (v : Float3) (q : ℚ) : Float3 := ⟨v.x * q, v.y * q, v.z * q⟩

/-- Componentwise vector-divided-by-float (`float3 / float`). -/
def Float3.divQ (v : Float3) (q : ℚ) : Float3 := ⟨v.x / q, v.y / q, v.z / q⟩

instance : HMul Float3 ℚ Float3 := ⟨Float3.scale⟩

instance : HDiv Float3 ℚ Float3 := ⟨Float3.divQ⟩

/-- Modelled from the spec: `hippt::dot` lives in HostDeviceCommon/Math.h which
is not under src/; it is the standard Euclidean dot product. -/
def hippt.dot (v w : Float3) : ℚ := v.x * w.x + v.y * w.y + v.z * w.z

/-- Modelled from the spec: `hippt::normalize` (HostDeviceCommon/Math.h, not
under src/) divides a vector by its Euclidean length.  The length function
(a real square root, irrational in general) is passed explicitly as `len`;
theorems that depend on its value carry the hypothesis that `len` agrees with
the Euclidean length at the points where it is used. -/
def hippt.normalize (len : Float3 → ℚ) (v : Float3) : Float3 := v / len v

/-- `int2` resolution; the renderer only launches with nonnegative
resolutions, so both components are modelled as `ℕ`. -/
structure Int2 where
  x : ℕ
  y : ℕ
deriving DecidableEq, Repr

/-- 2^32, the modulus of `unsigned int` arithmetic. -/
def UINT32_MOD : ℕ := 2 ^ 32

/-- `wang_hash` (PathTracerKernel.h lines 16-24): `unsigned int` arithmetic
modelled on `ℕ` with explicit `% 2^32` at the two multiplications (xor and
right-shift of values below `2^32` cannot leave `2^32`). -/
def wang_hash (seed : ℕ) : ℕ :=
  let s1 := (seed ^^^ 61) ^^^ (seed >>> 16)
  let s2 := s1 * 9 % UINT32_MOD
  let s3 := s2 ^^^ (s2 >>> 4)
  let s4 := s3 * 0x27d4eb2d % UINT32_MOD
  s4 ^^^ (s4 >>> 15)

/-- The render-settings fields read by the analysed sources
(HostDeviceCommon/RenderSettings is not under src/, but every field below is
read or written by PathTracerKernel.h or GPURenderer.cpp).  The integer
fields are counters and counts, modelled as `ℕ`. -/
structure RenderSettings where
  sample_number : ℕ
  frame_number : ℕ
  samples_per_frame : ℕ
  nb_bounces : ℕ
  render_low_resolution : Bool
  render_low_resolution_scaling : ℕ
  freeze_random : Bool
  display_NaNs : Bool
  enable_adaptive_sampling : Bool
  stop_pixel_noise_threshold : ℚ
deriving DecidableEq, Repr

/-- Modelled from the spec: `has_access_to_adaptive_sampling_buffers` is
declared on the render settings outside src/; the kernel's own comment
(PathTracerKernel.h line 93) and §4.2 of the spec state that the buffers are
available exactly when adaptive sampling or the stop-noise threshold is
enabled. -/
def RenderSettings.has_access_to_adaptive_sampling_buffers (rs : RenderSettings) : Bool :=
  rs.enable_adaptive_sampling || decide (0 < rs.stop_pixel_noise_threshold)

/-- The device buffers touched by the kernel, as total functions from the
linear pixel index.  `still_one_ray_active` is the single-cell flag buffer. -/
structure Buffers where
  pixels : ℕ → ColorRGB32F
  denoiser_normals : ℕ → Float3
  denoiser_albedo : ℕ → ColorRGB32F
  pixel_sample_count : ℕ → ℕ
  pixel_squared_luminance : ℕ → ℚ
  still_one_ray_active : Bool

/-- `reset_render` (PathTracerKernel.h lines 84-97): zero the color and
albedo entries, set the denoiser normal entry to `(1,1,1)`, and zero the two
adaptive-sampling statistics when those buffers are accessible. -/
def reset_render (rs : RenderSettings) (pixel_index : ℕ) (b : Buffers) : Buffers :=
  let b1 := { b with
    pixels := Function.update b.pixels pixel_index ⟨0, 0, 0⟩,
    denoiser_normals := Function.update b.denoiser_normals pixel_index ⟨1, 1, 1⟩,
    denoiser_albedo := Function.update b.denoiser_albedo pixel_index ⟨0, 0, 0⟩ }
  if rs.has_access_to_adaptive_sampling_buffers then
    { b1 with
      pixel_sample_count := Function.update b1.pixel_sample_count pixel_index 0,
      pixel_squared_luminance := Function.update b1.pixel_squared_luminance pixel_index 0 }
  else b1

/-- Modelled from the spec: the outcome of one iteration of the per-sample
bounce loop (PathTracerKernel.h lines 165-308).  The loop body calls
`trace_ray`, `sample_one_light`, `sample_environment_map` and the BSDF
dispatcher, none of which are under src/; §4.1 of the spec describes its
result as one radiance estimate per sample plus the bounce-0 shading normal
and material base color for the denoiser AOVs.  `is_nan` abstracts the
IEEE-754 NaN-ness of `ray_color` (not representable in the rational model);
`hippt::isNaN` (Math.h, not under src/) reports exactly this flag. -/
structure SampleOutcome where
  ray_color : ColorRGB32F
  is_nan : Bool
  shading_normal : Float3
  base_color : ColorRGB32F
deriving DecidableEq, Repr

/-- `check_for_negative_color` (PathTracerKernel.h lines 34-46): true iff a
component of the color is negative (the host-only logging is side-effect
free and not modelled). -/
def check_for_negative_color (c : ColorRGB32F) : Bool :=
  decide (c.r < 0) || decide (c.g < 0) || decide (c.b < 0)

/-- `check_for_nan` (PathTracerKernel.h lines 48-59): reports the NaN-ness
flag of the sample (see `SampleOutcome.is_nan`). -/
def check_for_nan (s : SampleOutcome) : Bool := s.is_nan

/-- The `invalid` condition of `sanity_check` (PathTracerKernel.h lines
64-68). -/
def sanity_check_invalid (s : SampleOutcome) : Bool :=
  check_for_negative_color s.ray_color || check_for_nan s

/-- The bright sentinel color `ColorRGB32F(1.0e15f, 0.0f, 1.0e15f)` written
by `sanity_check` in the show-NaNs debug mode (PathTracerKernel.h line 73). -/
def nan_sentinel_color : ColorRGB32F := ⟨10 ^ 15, 0, 10 ^ 15⟩

/-- `debug_set_final_color` (PathTracerKernel.h lines 26-32): writes
`final_color` (scaled by `sample_number` unless it is zero) to the
framebuffer at linear index `y * res_x + x`. -/
def debug_set_final_color (rs : RenderSettings) (x y res_x : ℕ)
    (final_color : ColorRGB32F) (b : Buffers) : Buffers :=
  if rs.sample_number = 0 then
    { b with pixels := Function.update b.pixels (y * res_x + x) final_color }
  else
    let scaled := final_color * (rs.sample_number : ℚ)
    { b with pixels := Function.update b.pixels (y * res_x + x) scaled }

/-- Modelled from the spec: `ColorRGB32F::luminance` (Image/color.h, not
under src/) is the Rec. 709 luma of the color. -/
def luminance (c : ColorRGB32F) : ℚ :=
  (2126 / 10000 : ℚ) * c.r + (7152 / 10000 : ℚ) * c.g + (722 / 10000 : ℚ) * c.b

/-- Modelled from the spec: the result of the Adaptive Sampling Controller
(`adaptive_sampling` in Device/includes/AdaptiveSampling.h, not under src/).
§4.2: a boolean "needs more samples" plus a boolean "this pixel just
converged this frame". -/
structure AdaptiveResult where
  sampling_needed : Bool
  pixel_converged : Bool
deriving DecidableEq, Repr

/-- Accumulator of the per-sample loop (PathTracerKernel.h lines 161-164):
squared luminance, final color, and the per-frame denoiser AOV
accumulators. -/
structure LoopAcc where
  squared_luminance_of_samples : ℚ
  final_color : ColorRGB32F
  denoiser_albedo : ColorRGB32F
  denoiser_normal : Float3
deriving DecidableEq, Repr

/-- The zero initialisation of the loop accumulator (lines 161-164). -/
def initLoopAcc : LoopAcc := ⟨0, 0, 0, 0⟩

/-- One accumulation step of the sample loop (lines 314-315 together with
the denoiser AOV accumulation at lines 187-191, folded into the abstract
`SampleOutcome`). -/
def accumulateSample (acc : LoopAcc) (s : SampleOutcome) : LoopAcc :=
  { squared_luminance_of_samples :=
      acc.squared_luminance_of_samples + luminance s.ray_color * luminance s.ray_color,
    final_color := acc.final_color + s.ray_color,
    denoiser_albedo := acc.denoiser_albedo + s.base_color,
    denoiser_normal := acc.denoiser_normal + s.shading_normal }

/-- The sample loop (PathTracerKernel.h lines 165-316): run `k` more samples
starting at sample index `i`; on the first sample failing `sanity_check` the
kernel returns (`.error` with the failing sample index), otherwise the
accumulated `LoopAcc` is produced. -/
def runSampleLoop (bl : ℕ → SampleOutcome) : ℕ → ℕ → LoopAcc → Except ℕ LoopAcc
  | _, 0, acc => .ok acc
  | i, k + 1, acc =>
    let s := bl i
    if sanity_check_invalid s then .error i
    else runSampleLoop bl (i + 1) k (accumulateSample acc s)

/-- The same loop without the sanity-check early exit; used to state what the
loop computes when every sample is valid. -/
def runSampleLoopTotal (bl : ℕ → SampleOutcome) : ℕ → ℕ → LoopAcc → LoopAcc
  | _, 0, acc => acc
  | i, k + 1, acc => runSampleLoopTotal bl (i + 1) k (accumulateSample acc (bl i))

/-- The seed derivation of the kernel (PathTracerKernel.h lines 154-158):
`wang_hash(pixel_index + 1)` with frozen randomness, otherwise
`wang_hash((pixel_index + 1) * (sample_number + 1))`, in `unsigned int`
arithmetic. -/
def kernelSeed (rs : RenderSettings) (pixel_index : ℕ) : ℕ :=
  if rs.freeze_random then wang_hash ((pixel_index + 1) % UINT32_MOD)
  else wang_hash ((pixel_index + 1) * (rs.sample_number + 1) % UINT32_MOD)

/-- The in-kernel mutation of the render settings in low-resolution mode
(PathTracerKernel.h lines 116-120): force 3 bounces and one sample per
frame. -/
def effectiveSettings (rs : RenderSettings) : RenderSettings :=
  if rs.render_low_resolution then { rs with nb_bounces := 3, samples_per_frame := 1 }
  else rs

/-- The linear pixel index used by the kernel after the optional
low-resolution division (PathTracerKernel.h lines 109 and 122). -/
def kernelPixelIndex (rs : RenderSettings) (res : Int2) (x y : ℕ) : ℕ :=
  let p := x + y * res.x
  if rs.render_low_resolution then p / rs.render_low_resolution_scaling else p

/-- The low-resolution skip condition (PathTracerKernel.h line 126): in
low-resolution mode only threads whose coordinates are both multiples of the
scaling factor survive. -/
def lowResSkip (rs : RenderSettings) (x y : ℕ) : Bool :=
  rs.render_low_resolution &&
    (decide (x % rs.render_low_resolution_scaling ≠ 0) ||
     decide (y % rs.render_low_resolution_scaling ≠ 0))

/-- The per-pixel lazy frame reset (PathTracerKernel.h lines 130-131):
`reset_render` runs exactly when `sample_number == 0`. -/
def resetIfFirstSample (rs : RenderSettings) (pixel_index : ℕ) (b : Buffers) : Buffers :=
  if rs.sample_number = 0 then reset_render rs pixel_index b else b

/-- How one kernel thread returned. -/
inductive KernelExit where
  | out_of_bounds
  | low_res_skip
  | stopped
  | aborted (sample : ℕ)
  | completed
deriving DecidableEq, Repr

/-- The observable effect of one kernel thread: the buffers after the
thread, the pixel index it addressed (none when it returned before touching
any buffer), the amount atomically added to the converged-pixel counter, and
the number of samples whose rays were traced. -/
structure KernelResult where
  exit : KernelExit
  state : Buffers
  pixel_index : Option ℕ
  converged_inc : ℕ
  samples_traced : ℕ

/-- The post-loop accumulation of `PathTracerKernel` (PathTracerKernel.h
lines 318-342): set the still-one-ray-active flag, accumulate the
adaptive-sampling statistics when accessible, accumulate the frame's color
into the framebuffer, and update the frame-weighted running averages of the
denoiser AOVs (the normal is renormalized only when its accumulated length
is nonzero). -/
def kernelAccumulate (rs : RenderSettings) (pixel_index : ℕ) (len : Float3 → ℚ)
    (acc : LoopAcc) (b1 : Buffers) : Buffers :=
  let b2 := { b1 with still_one_ray_active := true }
  let b3 := if rs.has_access_to_adaptive_sampling_buffers then
    { b2 with
      pixel_squared_luminance := Function.update b2.pixel_squared_luminance
        pixel_index (b2.pixel_squared_luminance pixel_index +
          acc.squared_luminance_of_samples),
      pixel_sample_count := Function.update b2.pixel_sample_count pixel_index
        (b2.pixel_sample_count pixel_index + rs.samples_per_frame) }
    else b2
  let accumulated_pixel := b3.pixels pixel_index + acc.final_color
  let b4 := { b3 with pixels := Function.update b3.pixels pixel_index accumulated_pixel }
  let frame_albedo := acc.denoiser_albedo.divQ (rs.samples_per_frame : ℚ)
  let frame_normal := acc.denoiser_normal.divQ (rs.samples_per_frame : ℚ)
  let scaled_albedo := (b4.denoiser_albedo pixel_index).scale (rs.frame_number : ℚ)
  let new_albedo := (scaled_albedo + frame_albedo).divQ ((rs.frame_number : ℚ) + 1)
  let b5 := { b4 with denoiser_albedo := Function.update b4.denoiser_albedo
                         pixel_index new_albedo }
  let scaled_normal := (b5.denoiser_normals pixel_index).scale (rs.frame_number : ℚ)
  let accumulated_normal := (scaled_normal + frame_normal).divQ ((rs.frame_number : ℚ) + 1)
  let normal_length := len accumulated_normal
  let renormalized := accumulated_normal.divQ normal_length
  if normal_length ≠ 0 then
    { b5 with denoiser_normals := Function.update b5.denoiser_normals
                 pixel_index renormalized }
    else b5

/-- `PathTracerKernel` (PathTracerKernel.h lines 100-342) for one thread at
coordinates `(x, y)`.

Parameters standing for code that is not under src/:
* `adaptive` — the Adaptive Sampling Controller result per pixel index
  (Device/includes/AdaptiveSampling.h);
* `bounce_loop` — the bounce loop's outcome as a function of the RNG seed
  and the sample index (the loop body's ray tracing and light sampling);
* `len` — `hippt::length`, used to renormalize the accumulated denoiser
  normal. -/
def PathTracerKernel (rs0 : RenderSettings) (res : Int2) (x y : ℕ)
    (adaptive : ℕ → AdaptiveResult)
    (bounce_loop : ℕ → ℕ → SampleOutcome)
    (len : Float3 → ℚ)
    (b : Buffers) : KernelResult :=
  if res.x * res.y ≤ x + y * res.x then
    { exit := .out_of_bounds, state := b, pixel_index := none,
      converged_inc := 0, samples_traced := 0 }
  else
    let rs := effectiveSettings rs0
    let pixel_index := kernelPixelIndex rs0 res x y
    if lowResSkip rs0 x y then
      { exit := .low_res_skip, state := b, pixel_index := none,
        converged_inc := 0, samples_traced := 0 }
    else
      let b1 := resetIfFirstSample rs pixel_index b
      let ar := adaptive pixel_index
      let inc : ℕ := if ar.pixel_converged || !ar.sampling_needed then 1 else 0
      if !ar.sampling_needed then
        let rescaled := ((b1.pixels pixel_index).divQ (rs.sample_number : ℚ)).scale
          ((rs.sample_number : ℚ) + (rs.samples_per_frame : ℚ))
        { exit := .stopped,
          state := { b1 with pixels := Function.update b1.pixels pixel_index rescaled },
          pixel_index := some pixel_index, converged_inc := inc, samples_traced := 0 }
      else
        let seed := kernelSeed rs pixel_index
        match runSampleLoop (bounce_loop seed) 0 rs.samples_per_frame initLoopAcc with
        | .error j =>
          let b2 := if rs.display_NaNs
            then debug_set_final_color rs x y res.x nan_sentinel_color b1 else b1
          { exit := .aborted j, state := b2, pixel_index := some pixel_index,
            converged_inc := inc, samples_traced := j + 1 }
        | .ok acc =>
          { exit := .completed, state := kernelAccumulate rs pixel_index len acc b1,
            pixel_index := some pixel_index,
            converged_inc := inc, samples_traced := rs.samples_per_frame }

/-- The host copy of the two status scalars (`StatusBuffersValues`,
read back by `GPURenderer::copy_status_buffers`). -/
structure StatusBuffersValues where
  one_ray_active : Bool
  pixel_converged_count : ℕ
deriving DecidableEq, Repr

/-- The two device-resident status scalars (`m_still_one_ray_active_buffer`
and `m_pixels_converged_count_buffer`). -/
structure DeviceStatusBuffers where
  still_one_ray_active : Bool
  pixels_converged_count : ℕ
deriving DecidableEq, Repr

/-- The `GPURenderer` state touched by `reset()` and its callees, together
with the element counts of every per-pixel device buffer (reset() must not
allocate, free or resize any of them). -/
structure GPURendererState where
  render_settings : RenderSettings
  status_buffers_values : StatusBuffersValues
  last_frame_time : ℚ
  framebuffer_elems : ℕ
  denoised_framebuffer_elems : ℕ
  normals_aov_elems : ℕ
  albedo_aov_elems : ℕ
  pixels_sample_count_elems : ℕ
  pixels_squared_luminance_elems : ℕ
deriving DecidableEq, Repr

/-- `GPURenderer::internal_clear_m_status_buffers` (GPURenderer.cpp lines
72-76): host-side status values back to their reset values. -/
def internal_clear_m_status_buffers (s : GPURendererState) : GPURendererState :=
  { s with status_buffers_values :=
      { one_ray_active := true, pixel_converged_count := 0 } }

/-- `GPURenderer::internal_update_clear_device_status_buffers`
(GPURenderer.cpp lines 62-70): upload false / zero to the two device status
scalars before a frame. -/
def internal_update_clear_device_status_buffers (_d : DeviceStatusBuffers) :
    DeviceStatusBuffers :=
  { still_one_ray_active := false, pixels_converged_count := 0 }

/-- `GPURenderer::reset_last_frame_time` (GPURenderer.cpp lines 293-296). -/
def reset_last_frame_time (s : GPURendererState) : GPURendererState :=
  { s with last_frame_time := 0 }

/-- `GPURenderer::reset` (GPURenderer.cpp lines 298-306): frame_number and
sample_number to 0, samples_per_frame to 1, then `reset_last_frame_time()`
and `internal_clear_m_status_buffers()`. -/
def GPURenderer.reset (s : GPURendererState) : GPURendererState :=
  let s1 := { s with render_settings :=
    { s.render_settings with frame_number := 0, sample_number := 0, samples_per_frame := 1 } }
  internal_clear_m_status_buffers (reset_last_frame_time s1)

/-- One frame of a single pixel's history, for the multi-frame accumulation
invariant: either the Adaptive Sampling Controller requested sampling and
the bounce loop produced the listed per-sample radiance values (one per
executed sample, so `samples_per_frame` is the list length), or the
controller reported that sampling is not needed while the rest of the image
renders `spf` samples. -/
inductive FrameData where
  | active (rads : List ColorRGB32F)
  | stopped (spf : ℕ)
deriving DecidableEq, Repr

/-- The `samples_per_frame` setting during a frame. -/
def FrameData.spf : FrameData → ℕ
  | .active rads => rads.length
  | .stopped spf => spf

/-- The Adaptive Sampling Controller result during a frame. -/
def FrameData.adaptiveResult : FrameData → AdaptiveResult
  | .active _ => ⟨true, false⟩
  | .stopped _ => ⟨false, false⟩

/-- The bounce-loop outcomes during a frame: sample `j` returns the `j`-th
radiance value of the frame, with valid (non-NaN, nonnegative) colors. -/
def FrameData.bounceLoop : FrameData → ℕ → ℕ → SampleOutcome
  | .active rads => fun _ j => ⟨rads.getD j 0, false, 0, 0⟩
  | .stopped _ => fun _ _ => ⟨0, false, 0, 0⟩

/-- The render settings of one frame of the accumulation trace: sample
`n` samples accumulated so far, `spf` samples this frame, full resolution. -/
def traceSettings (n spf : ℕ) : RenderSettings :=
  { sample_number := n, frame_number := 0, samples_per_frame := spf, nb_bounces := 8,
    render_low_resolution := false, render_low_resolution_scaling := 1,
    freeze_random := false, display_NaNs := false,
    enable_adaptive_sampling := true, stop_pixel_noise_threshold := 0 }

/-- One frame of the accumulation trace for the pixel at index 0 of a 1×1
dispatch: run `PathTracerKernel`, then advance `sample_number` by
`samples_per_frame`.  The host-side increment is modelled from the spec:
`RenderWindow::increment_sample_number` is not under src/; §3 and the
kernel's rescale at PathTracerKernel.h line 149 fix the new total as
`sample_number + samples_per_frame`. -/
def stepFrame : Buffers × ℕ → FrameData → Buffers × ℕ
  | (b, n), f =>
    let r := PathTracerKernel (traceSettings n f.spf) ⟨1, 1⟩ 0 0
      (fun _ => f.adaptiveResult) f.bounceLoop (fun _ => 0) b
    (r.state, n + f.spf)

/-- A pixel's whole history across frames, starting from `sample_number = 0`
(the kernel performs the lazy per-pixel reset on the first frame): returns
the final buffers and the final accumulated sample count. -/
def runTrace (b : Buffers) (frames : List FrameData) : Buffers × ℕ :=
  frames.foldl stepFrame (b, 0)

/-- Modelled from the spec: the terms of the Cook-Torrance evaluation whose
definitions live in Device/includes/Sampling.h and HostDeviceCommon/Math.h,
none of which are under src/ — `GGX_normal_distribution` (of `alpha` and
`NoH`), `GGX_smith_masking_shadowing` (of `alpha`, `NoV`, `NoL`),
`fresnel_schlick` (of `F0` and the cosine), the float constant `M_PI`, and
`hippt::length`.  §4.3 of the spec names the terms; §8 requires the
resulting PDF to be strictly positive whenever all cosine terms are
positive. -/
structure ShadingTerms where
  GGX_normal_distribution : ℚ → ℚ → ℚ
  GGX_smith_masking_shadowing : ℚ → ℚ → ℚ → ℚ
  fresnel_schlick : ColorRGB → ℚ → ColorRGB
  M_PI : ℚ
  length : Float3 → ℚ

/-- The material fields read by CookTorrance.h (`RendererMaterial` is
declared in HostDeviceCommon/Material.h, not under src/). -/
structure RendererMaterial where
  base_color : ColorRGB
  metallic : ℚ
  roughness : ℚ
deriving DecidableEq, Repr

/-- `cook_torrance_brdf_pdf` (CookTorrance.h lines 13-24): the PDF
`D * NoH / (4 * VoH)` with clamped dot products against the normalized
halfway vector; it reads neither `NoV` nor `NoL`. -/
def cook_torrance_brdf_pdf (sh : ShadingTerms) (material : RendererMaterial)
    (view_direction to_light_direction surface_normal : Float3) : ℚ :=
  let microfacet_normal := hippt.normalize sh.length (view_direction + to_light_direction)
  let alpha := material.roughness * material.roughness
  let VoH := max 0 (hippt.dot view_direction microfacet_normal)
  let NoH := max 0 (hippt.dot surface_normal microfacet_normal)
  let D := sh.GGX_normal_distribution alpha NoH
  D * NoH / (4 * VoH)

/-- `cook_torrance_brdf` (CookTorrance.h lines 26-67): zero unless
`NoV > 0 && NoL > 0 && NoH > 0`, otherwise diffuse plus specular
microfacet terms. -/
def cook_torrance_brdf (sh : ShadingTerms) (material : RendererMaterial)
    (to_light_direction view_direction surface_normal : Float3) : ColorRGB :=
  let brdf_color : ColorRGB := ⟨0, 0, 0⟩
  let base_color := material.base_color
  let halfway_vector := hippt.normalize sh.length (view_direction + to_light_direction)
  let NoV := max 0 (hippt.dot surface_normal view_direction)
  let NoL := max 0 (hippt.dot surface_normal to_light_direction)
  let NoH := max 0 (hippt.dot surface_normal halfway_vector)
  let VoH := max 0 (hippt.dot halfway_vector view_direction)
  if 0 < NoV ∧ 0 < NoL ∧ 0 < NoH then
    let metallic := material.metallic
    let roughness := material.roughness
    let alpha := roughness * roughness
    let F0 : ColorRGB := ⟨4 / 100 * (1 - metallic), 4 / 100 * (1 - metallic),
      4 / 100 * (1 - metallic)⟩ + metallic * base_color
    let F := sh.fresnel_schlick F0 VoH
    let D := sh.GGX_normal_distribution alpha NoH
    let G := sh.GGX_smith_masking_shadowing alpha NoV NoL
    let kD : ColorRGB := ⟨1 - metallic, 1 - metallic, 1 - metallic⟩ *
      ((⟨1, 1, 1⟩ : ColorRGB) - F)
    let diffuse_part := (kD * base_color).divQ sh.M_PI
    let specular_part := (F.scale (D * G)).divQ (4 * NoV * NoL)
    diffuse_part + specular_part
  else
    brdf_color

@[simp] theorem ColorRGB32F.add_zero (c : ColorRGB32F) : c + 0 = c := by
  ext <;> simp

@[simp] theorem ColorRGB32F.zero_add (c : ColorRGB32F) : 0 + c = c := by
  ext <;> simp

theorem ColorRGB32F.add_assoc (c d e : ColorRGB32F) : c + d + e = c + (d + e) := by
  ext <;> simp <;> ring

@[simp] theorem ColorRGB32F.scale_r (c : ColorRGB32F) (q : ℚ) : (c.scale q).r = c.r * q := rfl

@[simp] theorem ColorRGB32F.scale_g (c : ColorRGB32F) (q : ℚ) : (c.scale q).g = c.g * q := rfl

@[simp] theorem ColorRGB32F.scale_b (c : ColorRGB32F) (q : ℚ) : (c.scale q).b = c.b * q := rfl

@[simp] theorem ColorRGB32F.divQ_r (c : ColorRGB32F) (q : ℚ) : (c.divQ q).r = c.r / q := rfl

@[simp] theorem ColorRGB32F.divQ_g (c : ColorRGB32F) (q : ℚ) : (c.divQ q).g = c.g / q := rfl

@[simp] theorem ColorRGB32F.divQ_b (c : ColorRGB32F) (q : ℚ) : (c.divQ q).b = c.b / q := rfl

@[simp] theorem accumulateSample_final_color (acc : LoopAcc) (s : SampleOutcome) :
    (accumulateSample acc s).final_color = acc.final_color + s.ray_color := rfl

@[simp] theorem initLoopAcc_final_color : initLoopAcc.final_color = 0 := rfl

/-- When every remaining sample passes the sanity check, the sample loop
does not abort and computes the total accumulation. -/
theorem runSampleLoop_ok_of_valid (bl : ℕ → SampleOutcome) :
    ∀ (k i : ℕ) (acc : LoopAcc),
      (∀ j, j < k → sanity_check_invalid (bl (i + j)) = false) →
      runSampleLoop bl i k acc = .ok (runSampleLoopTotal bl i k acc) := by
  intro k
  induction k with
  | zero => intro i acc _; rfl
  | succ m ih =>
    intro i acc h
    have h0 : sanity_check_invalid (bl i) = false := by
      have := h 0 (Nat.succ_pos m)
      simpa using this
    have hrest : ∀ j, j < m → sanity_check_invalid (bl (i + 1 + j)) = false := by
      intro j hj
      have := h (j + 1) (Nat.succ_lt_succ hj)
      have e : i + (j + 1) = i + 1 + j := by omega
      rwa [e] at this
    simp only [runSampleLoop, runSampleLoopTotal, h0, Bool.false_eq_true, if_false]
    exact ih (i + 1) _ hrest

/-- If sample `i + j` is the first invalid sample, the loop aborts there. -/
theorem runSampleLoop_error_at (bl : ℕ → SampleOutcome) :
    ∀ (k j i : ℕ) (acc : LoopAcc), j < k →
      (∀ m, m < j → sanity_check_invalid (bl (i + m)) = false) →
      sanity_check_invalid (bl (i + j)) = true →
      runSampleLoop bl i k acc = .error (i + j) := by
  intro k
  induction k with
  | zero => intro j i acc hj; omega
  | succ m ih =>
    intro j i acc hj hvalid hbad
    cases j with
    | zero =>
      simp only [Nat.add_zero] at hbad
      simp [runSampleLoop, hbad]
    | succ j' =>
      have h0 : sanity_check_invalid (bl i) = false := by
        have := hvalid 0 (Nat.succ_pos j')
        simpa using this
      have hrest : ∀ m', m' < j' → sanity_check_invalid (bl (i + 1 + m')) = false := by
        intro m' hm'
        have := hvalid (m' + 1) (Nat.succ_lt_succ hm')
        have e : i + (m' + 1) = i + 1 + m' := by omega
        rwa [e] at this
      have hbad' : sanity_check_invalid (bl (i + 1 + j')) = true := by
        have e : i + (j' + 1) = i + 1 + j' := by omega
        rwa [e] at hbad
      have := ih j' (i + 1) (accumulateSample acc (bl i)) (by omega) hrest hbad'
      simp only [runSampleLoop, h0, Bool.false_eq_true, if_false]
      rw [this]
      congr 1
      omega

/-- Shifting the start index of the total loop into the sample function. -/
theorem runSampleLoopTotal_shift (bl : ℕ → SampleOutcome) :
    ∀ (k i : ℕ) (acc : LoopAcc),
      runSampleLoopTotal bl (i + 1) k acc =
        runSampleLoopTotal (fun j => bl (j + 1)) i k acc := by
  intro k
  induction k with
  | zero => intro i acc; rfl
  | succ m ih =>
    intro i acc
    simp only [runSampleLoopTotal]
    rw [ih (i + 1)]

/-- The final color accumulated by a loop that returns the entries of a
fixed radiance list is the sum of that list. -/
theorem runSampleLoopTotal_final_color_list (rads : List ColorRGB32F) :
    ∀ acc : LoopAcc,
      (runSampleLoopTotal (fun j => (⟨rads.getD j 0, false, 0, 0⟩ : SampleOutcome))
          0 rads.length acc).final_color = acc.final_color + sumColors rads := by
  induction rads with
  | nil => intro acc; simp [runSampleLoopTotal]
  | cons c rest ih =>
    intro acc
    have step : runSampleLoopTotal
        (fun j => (⟨(c :: rest).getD j 0, false, 0, 0⟩ : SampleOutcome)) 0
        (c :: rest).length acc =
      runSampleLoopTotal (fun j => (⟨(c :: rest).getD (j + 1) 0, false, 0, 0⟩ : SampleOutcome)) 0
        rest.length (accumulateSample acc ⟨c, false, 0, 0⟩) := by
      rw [List.length_cons]
      show runSampleLoopTotal _ (0 + 1) rest.length _ = _
      rw [runSampleLoopTotal_shift]
      rfl
    have e : (fun j => (⟨(c :: rest).getD (j + 1) 0, false, 0, 0⟩ : SampleOutcome)) =
        fun j => (⟨rest.getD j 0, false, 0, 0⟩ : SampleOutcome) := by
      funext j
      simp
    rw [step, e, ih]
    simp [ColorRGB32F.add_assoc]



/-- Projections of the kernel result when the Adaptive Sampling Controller
reports that sampling is not needed (PathTracerKernel.h lines 133-152). -/
theorem PathTracerKernel_stopped_spec (rs0 : RenderSettings) (res : Int2) (x y : ℕ)
    (adaptive : ℕ → AdaptiveResult) (bounce_loop : ℕ → ℕ → SampleOutcome)
    (len : Float3 → ℚ) (b : Buffers) (r : KernelResult) (rs : RenderSettings)
    (idx : ℕ) (b1 : Buffers)
    (hb : x + y * res.x < res.x * res.y)
    (hskip : lowResSkip rs0 x y = false)
    (hrs : rs = effectiveSettings rs0)
    (hidx : idx = kernelPixelIndex rs0 res x y)
    (hb1 : b1 = resetIfFirstSample rs idx b)
    (hns : (adaptive idx).sampling_needed = false)
    (hr : r = PathTracerKernel rs0 res x y adaptive bounce_loop len b) :
    r.exit = .stopped ∧
    r.pixel_index = some idx ∧
    r.samples_traced = 0 ∧
    r.converged_inc = 1 ∧
    r.state.pixels idx = ((b1.pixels idx).divQ (rs.sample_number : ℚ)).scale
      ((rs.sample_number : ℚ) + (rs.samples_per_frame : ℚ)) ∧
    (∀ j, j ≠ idx → r.state.pixels j = b1.pixels j) ∧
    r.state.denoiser_normals = b1.denoiser_normals ∧
    r.state.denoiser_albedo = b1.denoiser_albedo ∧
    r.state.pixel_sample_count = b1.pixel_sample_count ∧
    r.state.pixel_squared_luminance = b1.pixel_squared_luminance ∧
    r.state.still_one_ray_active = b1.still_one_ray_active := by
  subst hrs
  subst hidx
  subst hb1
  subst hr
  have hb' : ¬(res.x * res.y ≤ x + y * res.x) := not_le.mpr hb
  rw [PathTracerKernel]
  simp only [hb', if_false, hskip, Bool.false_eq_true, hns, Bool.not_false, if_true,
    Bool.or_true]
  refine ⟨trivial, trivial, trivial, trivial, ?_, ?_, trivial, trivial, trivial, trivial, trivial⟩
  · exact Function.update_same _ _ _
  · intro j hj
    exact Function.update_noteq hj _ _

/-- Projections of the post-loop accumulation. -/
theorem kernelAccumulate_spec (rs : RenderSettings) (idx : ℕ) (len : Float3 → ℚ)
    (acc : LoopAcc) (b1 : Buffers) :
    (kernelAccumulate rs idx len acc b1).pixels idx = b1.pixels idx + acc.final_color ∧
    (∀ j, j ≠ idx → (kernelAccumulate rs idx len acc b1).pixels j = b1.pixels j) ∧
    (kernelAccumulate rs idx len acc b1).still_one_ray_active = true ∧
    (rs.has_access_to_adaptive_sampling_buffers = true →
      (kernelAccumulate rs idx len acc b1).pixel_sample_count idx =
        b1.pixel_sample_count idx + rs.samples_per_frame ∧
      (kernelAccumulate rs idx len acc b1).pixel_squared_luminance idx =
        b1.pixel_squared_luminance idx + acc.squared_luminance_of_samples) ∧
    (rs.has_access_to_adaptive_sampling_buffers = false →
      (kernelAccumulate rs idx len acc b1).pixel_sample_count = b1.pixel_sample_count ∧
      (kernelAccumulate rs idx len acc b1).pixel_squared_luminance =
        b1.pixel_squared_luminance) := by
  rw [kernelAccumulate]
  cases hacc : rs.has_access_to_adaptive_sampling_buffers with
  | false =>
    simp only [hacc, Bool.false_eq_true, if_false]
    split
    · refine ⟨Function.update_same _ _ _, ?_, rfl, ?_, ?_⟩
      · intro j hj
        exact Function.update_noteq hj _ _
      · intro h
        cases h
      · intro _
        exact ⟨rfl, rfl⟩
    · refine ⟨Function.update_same _ _ _, ?_, rfl, ?_, ?_⟩
      · intro j hj
        exact Function.update_noteq hj _ _
      · intro h
        cases h
      · intro _
        exact ⟨rfl, rfl⟩
  | true =>
    simp only [hacc, if_true]
    split
    · refine ⟨Function.update_same _ _ _, ?_, rfl, ?_, ?_⟩
      · intro j hj
        exact Function.update_noteq hj _ _
      · intro _
        exact ⟨Function.update_same _ _ _, Function.update_same _ _ _⟩
      · intro h
        cases h
    · refine ⟨Function.update_same _ _ _, ?_, rfl, ?_, ?_⟩
      · intro j hj
        exact Function.update_noteq hj _ _
      · intro _
        exact ⟨Function.update_same _ _ _, Function.update_same _ _ _⟩
      · intro h
        cases h

/-- Projections of the kernel result when the sample loop runs to completion. -/
theorem PathTracerKernel_completed_spec (rs0 : RenderSettings) (res : Int2) (x y : ℕ)
    (adaptive : ℕ → AdaptiveResult) (bounce_loop : ℕ → ℕ → SampleOutcome)
    (len : Float3 → ℚ) (b : Buffers) (r : KernelResult) (rs : RenderSettings)
    (idx : ℕ) (b1 : Buffers) (acc : LoopAcc)
    (hb : x + y * res.x < res.x * res.y)
    (hskip : lowResSkip rs0 x y = false)
    (hrs : rs = effectiveSettings rs0)
    (hidx : idx = kernelPixelIndex rs0 res x y)
    (hb1 : b1 = resetIfFirstSample rs idx b)
    (hns : (adaptive idx).sampling_needed = true)
    (hok : runSampleLoop (bounce_loop (kernelSeed rs idx)) 0 rs.samples_per_frame
      initLoopAcc = .ok acc)
    (hr : r = PathTracerKernel rs0 res x y adaptive bounce_loop len b) :
    r.exit = .completed ∧
    r.pixel_index = some idx ∧
    r.samples_traced = rs.samples_per_frame ∧
    r.converged_inc = (if (adaptive idx).pixel_converged then 1 else 0) ∧
    r.state = kernelAccumulate rs idx len acc b1 := by
  subst hrs
  subst hidx
  subst hb1
  subst hr
  have hb' : ¬(res.x * res.y ≤ x + y * res.x) := not_le.mpr hb
  rw [PathTracerKernel]
  simp only [hb', if_false, hskip, Bool.false_eq_true, hns, Bool.not_true, if_true, hok,
    Bool.or_false]
  exact ⟨trivial, trivial, trivial, trivial, trivial⟩

/-- Projections of the kernel result when the sanity check aborts the sample
loop at sample `j` (PathTracerKernel.h lines 310-312). -/
theorem PathTracerKernel_aborted_spec (rs0 : RenderSettings) (res : Int2) (x y : ℕ)
    (adaptive : ℕ → AdaptiveResult) (bounce_loop : ℕ → ℕ → SampleOutcome)
    (len : Float3 → ℚ) (b : Buffers) (r : KernelResult) (rs : RenderSettings)
    (idx : ℕ) (b1 : Buffers) (j : ℕ)
    (hb : x + y * res.x < res.x * res.y)
    (hskip : lowResSkip rs0 x y = false)
    (hrs : rs = effectiveSettings rs0)
    (hidx : idx = kernelPixelIndex rs0 res x y)
    (hb1 : b1 = resetIfFirstSample rs idx b)
    (hns : (adaptive idx).sampling_needed = true)
    (herr : runSampleLoop (bounce_loop (kernelSeed rs idx)) 0 rs.samples_per_frame
      initLoopAcc = .error j)
    (hr : r = PathTracerKernel rs0 res x y adaptive bounce_loop len b) :
    r.exit = .aborted j ∧
    r.pixel_index = some idx ∧
    r.samples_traced = j + 1 ∧
    r.converged_inc = (if (adaptive idx).pixel_converged then 1 else 0) ∧
    r.state = (if rs.display_NaNs then
      debug_set_final_color rs x y res.x nan_sentinel_color b1 else b1) := by
  subst hrs
  subst hidx
  subst hb1
  subst hr
  have hb' : ¬(res.x * res.y ≤ x + y * res.x) := not_le.mpr hb
  rw [PathTracerKernel]
  simp only [hb', if_false, hskip, Bool.false_eq_true, hns, Bool.not_true, if_true, herr,
    Bool.or_false]
  exact ⟨trivial, trivial, trivial, trivial, trivial⟩

/-- Projections of the kernel result for a thread whose linear index is out
of range (PathTracerKernel.h lines 109-111). -/
theorem PathTracerKernel_out_of_bounds_spec (rs0 : RenderSettings) (res : Int2) (x y : ℕ)
    (adaptive : ℕ → AdaptiveResult) (bounce_loop : ℕ → ℕ → SampleOutcome)
    (len : Float3 → ℚ) (b : Buffers) (r : KernelResult)
    (hb : res.x * res.y ≤ x + y * res.x)
    (hr : r = PathTracerKernel rs0 res x y adaptive bounce_loop len b) :
    r.exit = .out_of_bounds ∧ r.state = b ∧ r.pixel_index = none ∧
    r.converged_inc = 0 ∧ r.samples_traced = 0 := by
  subst hr
  rw [PathTracerKernel]
  simp only [hb, if_true]
  exact ⟨trivial, trivial, trivial, trivial, trivial⟩

/-- Projections of the kernel result for a thread skipped by the
low-resolution mode (PathTracerKernel.h lines 116-128). -/
theorem PathTracerKernel_low_res_skip_spec (rs0 : RenderSettings) (res : Int2) (x y : ℕ)
    (adaptive : ℕ → AdaptiveResult) (bounce_loop : ℕ → ℕ → SampleOutcome)
    (len : Float3 → ℚ) (b : Buffers) (r : KernelResult)
    (hb : x + y * res.x < res.x * res.y)
    (hskip : lowResSkip rs0 x y = true)
    (hr : r = PathTracerKernel rs0 res x y adaptive bounce_loop len b) :
    r.exit = .low_res_skip ∧ r.state = b ∧ r.pixel_index = none ∧
    r.converged_inc = 0 ∧ r.samples_traced = 0 := by
  subst hr
  have hb' : ¬(res.x * res.y ≤ x + y * res.x) := not_le.mpr hb
  rw [PathTracerKernel]
  simp only [hb', if_false, hskip, if_true]
  exact ⟨trivial, trivial, trivial, trivial, trivial⟩

/-- A thread returns at the bounds guard exactly when its linear index
reaches `res.x * res.y`. -/
theorem PathTracerKernel_exit_out_of_bounds_iff (rs0 : RenderSettings) (res : Int2)
    (x y : ℕ) (adaptive : ℕ → AdaptiveResult) (bounce_loop : ℕ → ℕ → SampleOutcome)
    (len : Float3 → ℚ) (b : Buffers) :
    (PathTracerKernel rs0 res x y adaptive bounce_loop len b).exit = .out_of_bounds ↔
      res.x * res.y ≤ x + y * res.x := by
  constructor
  · intro h
    by_contra hb
    rw [PathTracerKernel] at h
    simp only [hb, if_false] at h
    split at h
    · exact absurd h (by simp)
    · split at h
      · exact absurd h (by simp)
      · split at h
        · exact absurd h (by simp)
        · exact absurd h (by simp)
  · intro hb
    rw [PathTracerKernel]
    simp only [hb, if_true]

theorem reset_render_pixels (rs : RenderSettings) (idx : ℕ) (b : Buffers) :
    (reset_render rs idx b).pixels = Function.update b.pixels idx ⟨0, 0, 0⟩ := by
  rw [reset_render]
  split <;> rfl

theorem resetIfFirstSample_pixels_self (rs : RenderSettings) (idx : ℕ) (b : Buffers) :
    (resetIfFirstSample rs idx b).pixels idx =
      (if rs.sample_number = 0 then 0 else b.pixels idx) := by
  rw [resetIfFirstSample]
  split
  · rw [reset_render_pixels]
    simp [ColorRGB32F.zero_def]
  · simp

theorem effectiveSettings_traceSettings (n spf : ℕ) :
    effectiveSettings (traceSettings n spf) = traceSettings n spf := by
  simp [effectiveSettings, traceSettings]

theorem kernelPixelIndex_trace (n spf : ℕ) :
    kernelPixelIndex (traceSettings n spf) ⟨1, 1⟩ 0 0 = 0 := by
  simp [kernelPixelIndex, traceSettings]

theorem lowResSkip_trace (n spf : ℕ) : lowResSkip (traceSettings n spf) 0 0 = false := by
  simp [lowResSkip, traceSettings]

theorem stepFrame_active_spec (b : Buffers) (n : ℕ) (rads : List ColorRGB32F)
    (hv : ∀ c ∈ rads, check_for_negative_color c = false) :
    (stepFrame (b, n) (.active rads)).2 = n + rads.length ∧
    (stepFrame (b, n) (.active rads)).1.pixels 0 =
      (if n = 0 then 0 else b.pixels 0) + sumColors rads := by
  have hvalid : ∀ j, j < rads.length →
      sanity_check_invalid ((FrameData.active rads).bounceLoop
        (kernelSeed (effectiveSettings (traceSettings n rads.length)) 0) (0 + j)) = false := by
    intro j hj
    have hget : rads.getD (0 + j) 0 = rads[j] := by
      simp [List.getD_eq_getElem?_getD, List.getElem?_eq_getElem hj]
    have hmem : rads[j] ∈ rads := List.getElem_mem hj
    show (check_for_negative_color (rads.getD (0 + j) 0) || false) = false
    rw [hget, hv _ hmem]
    rfl
  have hok := runSampleLoop_ok_of_valid
    ((FrameData.active rads).bounceLoop
      (kernelSeed (effectiveSettings (traceSettings n rads.length)) 0))
    rads.length 0 initLoopAcc hvalid
  obtain ⟨he, hpi, hst, hinc, hstate⟩ := PathTracerKernel_completed_spec
    (traceSettings n rads.length) ⟨1, 1⟩ 0 0
    (fun _ => (FrameData.active rads).adaptiveResult)
    (FrameData.active rads).bounceLoop (fun _ => 0) b _
    (effectiveSettings (traceSettings n rads.length)) 0
    (resetIfFirstSample (effectiveSettings (traceSettings n rads.length)) 0 b) _
    (by decide)
    (by rw [lowResSkip_trace])
    rfl
    (by rw [kernelPixelIndex_trace])
    rfl
    rfl
    hok
    rfl
  constructor
  · rfl
  · have hpx := (kernelAccumulate_spec (effectiveSettings (traceSettings n rads.length)) 0
      (fun _ => 0)
      (runSampleLoopTotal ((FrameData.active rads).bounceLoop
        (kernelSeed (effectiveSettings (traceSettings n rads.length)) 0)) 0
        rads.length initLoopAcc)
      (resetIfFirstSample (effectiveSettings (traceSettings n rads.length)) 0 b)).1
    have hfc : (runSampleLoopTotal ((FrameData.active rads).bounceLoop
        (kernelSeed (effectiveSettings (traceSettings n rads.length)) 0)) 0
        rads.length initLoopAcc).final_color =
        initLoopAcc.final_color + sumColors rads :=
      runSampleLoopTotal_final_color_list rads initLoopAcc
    show (PathTracerKernel (traceSettings n rads.length) ⟨1, 1⟩ 0 0
      (fun _ => (FrameData.active rads).adaptiveResult)
      (FrameData.active rads).bounceLoop (fun _ => 0) b).state.pixels 0 = _
    rw [hstate, hpx, resetIfFirstSample_pixels_self, hfc]
    rw [effectiveSettings_traceSettings]
    simp [traceSettings]

theorem stepFrame_stopped_spec (b : Buffers) (n spf : ℕ) :
    (stepFrame (b, n) (.stopped spf)).2 = n + spf ∧
    (stepFrame (b, n) (.stopped spf)).1.pixels 0 =
      ((if n = 0 then 0 else b.pixels 0).divQ (n : ℚ)).scale ((n : ℚ) + (spf : ℚ)) := by
  obtain ⟨he, hpi, hst, hinc, hpx, hothers⟩ := PathTracerKernel_stopped_spec
    (traceSettings n spf) ⟨1, 1⟩ 0 0
    (fun _ => (FrameData.stopped spf).adaptiveResult)
    (FrameData.stopped spf).bounceLoop (fun _ => 0) b _
    (effectiveSettings (traceSettings n spf)) 0
    (resetIfFirstSample (effectiveSettings (traceSettings n spf)) 0 b)
    (by decide)
    (by rw [lowResSkip_trace])
    rfl
    (by rw [kernelPixelIndex_trace])
    rfl
    rfl
    rfl
  constructor
  · rfl
  · show (PathTracerKernel (traceSettings n spf) ⟨1, 1⟩ 0 0
      (fun _ => (FrameData.stopped spf).adaptiveResult)
      (FrameData.stopped spf).bounceLoop (fun _ => 0) b).state.pixels 0 = _
    rw [hpx, resetIfFirstSample_pixels_self]
    rw [effectiveSettings_traceSettings]
    simp [traceSettings]

theorem foldl_active_phase (A : List (List ColorRGB32F)) :
    ∀ (b : Buffers) (n : ℕ), 0 < n →
    (∀ rads ∈ A, ∀ c ∈ rads, check_for_negative_color c = false) →
    (List.foldl stepFrame (b, n) (A.map FrameData.active)).2 = n + A.flatten.length ∧
    (List.foldl stepFrame (b, n) (A.map FrameData.active)).1.pixels 0 =
      b.pixels 0 + sumColors A.flatten := by
  induction A with
  | nil =>
    intro b n hn _
    refine ⟨by simp, by simp⟩
  | cons rads A' ih =>
    intro b n hn hv
    obtain ⟨h2, h1⟩ := stepFrame_active_spec b n rads
      (hv rads (List.mem_cons_self rads A'))
    rw [if_neg hn.ne'] at h1
    have hrec := ih (stepFrame (b, n) (.active rads)).1
      (stepFrame (b, n) (.active rads)).2
      (by rw [h2]; omega)
      (fun r hr c hc => hv r (List.mem_cons_of_mem _ hr) c hc)
    rw [Prod.mk.eta] at hrec
    simp only [List.map_cons, List.foldl_cons]
    constructor
    · rw [hrec.1, h2, List.flatten_cons, List.length_append]
      omega
    · rw [hrec.2, h1, List.flatten_cons, sumColors_append, ColorRGB32F.add_assoc]

theorem foldl_stopped_phase (B : List ℕ) :
    ∀ (b : Buffers) (n : ℕ), 0 < n →
    (List.foldl stepFrame (b, n) (B.map FrameData.stopped)).2 = n + B.sum ∧
    (List.foldl stepFrame (b, n) (B.map FrameData.stopped)).1.pixels 0 =
      ((b.pixels 0).divQ (n : ℚ)).scale ((n : ℚ) + (B.sum : ℚ)) := by
  induction B with
  | nil =>
    intro b n hn
    have hn' : (n : ℚ) ≠ 0 := Nat.cast_ne_zero.mpr hn.ne'
    refine ⟨by simp, ?_⟩
    simp only [List.map_nil, List.foldl_nil, List.sum_nil, Nat.cast_zero, add_zero]
    ext <;> simp <;> field_simp
  | cons s B' ih =>
    intro b n hn
    have hn' : (n : ℚ) ≠ 0 := Nat.cast_ne_zero.mpr hn.ne'
    have hns' : ((n : ℚ) + (s : ℚ)) ≠ 0 := by positivity
    obtain ⟨h2, h1⟩ := stepFrame_stopped_spec b n s
    rw [if_neg hn.ne'] at h1
    have hrec := ih (stepFrame (b, n) (.stopped s)).1 (stepFrame (b, n) (.stopped s)).2
      (by rw [h2]; omega)
    rw [Prod.mk.eta] at hrec
    simp only [List.map_cons, List.foldl_cons]
    constructor
    · rw [hrec.1, h2, List.sum_cons]
      omega
    · rw [hrec.2, h1, h2, List.sum_cons]
      push_cast
      ext <;> simp <;> field_simp <;> ring

theorem ColorRGB32F.scale_divQ_cancel (c : ColorRGB32F) (q : ℚ) (hq : q ≠ 0) :
    (c.scale q).divQ q = c := by
  ext <;> simp <;> exact mul_div_cancel_right₀ _ hq

/-- C1: for every pixel history made of frames that actively sample followed
by frames where adaptive sampling stopped the pixel, the stored framebuffer
color divided by the total number of accumulated samples equals the
arithmetic mean of the per-sample radiance values produced for that pixel —
the kernel's rescale of stopped pixels keeps them consistent with the
display-time divide-by-sample-count. -/
theorem accumulation_mean_invariant (A : List (List ColorRGB32F)) (B : List ℕ)
    (b : Buffers)
    (hA : A ≠ [])
    (hne : ∀ rads ∈ A, rads ≠ [])
    (hv : ∀ rads ∈ A, ∀ c ∈ rads, check_for_negative_color c = false) :
    ((runTrace b (A.map FrameData.active ++ B.map FrameData.stopped)).1.pixels 0).divQ
        (((runTrace b (A.map FrameData.active ++ B.map FrameData.stopped)).2 : ℚ)) =
      (sumColors A.flatten).divQ ((A.flatten.length : ℚ)) := by
  obtain ⟨a, A', rfl⟩ : ∃ a A', A = a :: A' := by
    cases A with
    | nil => exact absurd rfl hA
    | cons a A' => exact ⟨a, A', rfl⟩
  have ha : 0 < a.length :=
    List.length_pos.mpr (hne a (List.mem_cons_self a A'))
  rw [runTrace, List.foldl_append]
  simp only [List.map_cons, List.foldl_cons]
  obtain ⟨h2, h1⟩ := stepFrame_active_spec b 0 a (hv a (List.mem_cons_self a A'))
  rw [if_pos rfl, ColorRGB32F.zero_add] at h1
  obtain ⟨g2, g1⟩ := foldl_active_phase A' (stepFrame (b, 0) (.active a)).1
    (stepFrame (b, 0) (.active a)).2 (by rw [h2]; omega)
    (fun r hr c hc => hv r (List.mem_cons_of_mem _ hr) c hc)
  rw [Prod.mk.eta] at g2 g1
  have hk : 0 < a.length + A'.flatten.length := by omega
  obtain ⟨f2, f1⟩ := foldl_stopped_phase B
    (List.foldl stepFrame (stepFrame (b, 0) (.active a)) (A'.map FrameData.active)).1
    (List.foldl stepFrame (stepFrame (b, 0) (.active a)) (A'.map FrameData.active)).2
    (by rw [g2, h2]; omega)
  rw [Prod.mk.eta] at f2 f1
  rw [f1, f2, g2, g1, h2, h1]
  rw [List.flatten_cons, sumColors_append, List.length_append]
  simp only [Nat.zero_add]
  have hkq : ((a.length + A'.flatten.length : ℕ) : ℚ) ≠ 0 := by
    exact_mod_cast hk.ne'
  have hNq : ((a.length + A'.flatten.length : ℕ) : ℚ) + (B.sum : ℚ) ≠ 0 := by
    have h1 : (0 : ℚ) < ((a.length + A'.flatten.length : ℕ) : ℚ) := by exact_mod_cast hk
    have h2 : (0 : ℚ) ≤ (B.sum : ℚ) := Nat.cast_nonneg _
    positivity
  have hcast : ((a.length + A'.flatten.length + B.sum : ℕ) : ℚ) =
      ((a.length + A'.flatten.length : ℕ) : ℚ) + (B.sum : ℚ) := by
    push_cast
    ring
  rw [hcast]
  exact ColorRGB32F.scale_divQ_cancel _ _ hNq

/-- Buffers whose entries are all zero and whose flag is clear; used as the
starting state of concrete instantiations. -/
def trivialBuffers : Buffers :=
  { pixels := fun _ => ⟨0, 0, 0⟩, denoiser_normals := fun _ => ⟨0, 0, 0⟩,
    denoiser_albedo := fun _ => ⟨0, 0, 0⟩, pixel_sample_count := fun _ => 0,
    pixel_squared_luminance := fun _ => 0, still_one_ray_active := false }

/-- Witness for C1: a two-frame active history producing the single sample
`(1, 2, 3)` followed by one stopped frame while the image renders 2 more
samples; the stored color divided by the final sample count is the mean of
the produced samples. -/
theorem accumulation_mean_invariant_witness :
    (([[(⟨1, 2, 3⟩ : ColorRGB32F)]] : List (List ColorRGB32F)) ≠ []) ∧
    (∀ rads ∈ ([[(⟨1, 2, 3⟩ : ColorRGB32F)]] : List (List ColorRGB32F)), rads ≠ []) ∧
    (∀ rads ∈ ([[(⟨1, 2, 3⟩ : ColorRGB32F)]] : List (List ColorRGB32F)),
      ∀ c ∈ rads, check_for_negative_color c = false) ∧
    ((runTrace trivialBuffers (([[(⟨1, 2, 3⟩ : ColorRGB32F)]] : List (List ColorRGB32F)).map
          FrameData.active ++ ([2] : List ℕ).map FrameData.stopped)).1.pixels 0).divQ
        (((runTrace trivialBuffers (([[(⟨1, 2, 3⟩ : ColorRGB32F)]] :
            List (List ColorRGB32F)).map FrameData.active ++
          ([2] : List ℕ).map FrameData.stopped)).2 : ℚ)) =
      (sumColors ([[(⟨1, 2, 3⟩ : ColorRGB32F)]] : List (List ColorRGB32F)).flatten).divQ
        ((([[(⟨1, 2, 3⟩ : ColorRGB32F)]] : List (List ColorRGB32F)).flatten.length : ℚ)) :=
  ⟨by decide, by decide, by decide,
    accumulation_mean_invariant [[(⟨1, 2, 3⟩ : ColorRGB32F)]] [2] trivialBuffers
      (by decide) (by decide) (by decide)⟩

/-- Default render settings for concrete instantiations: full resolution,
unfrozen randomness, first sample, one sample per frame. -/
def defaultRS : RenderSettings :=
  { sample_number := 0, frame_number := 0, samples_per_frame := 1, nb_bounces := 8,
    render_low_resolution := false, render_low_resolution_scaling := 4,
    freeze_random := false, display_NaNs := false,
    enable_adaptive_sampling := false, stop_pixel_noise_threshold := 0 }

/-- `defaultRS` with frozen randomness. -/
def frozenRS : RenderSettings := { defaultRS with freeze_random := true, sample_number := 7 }

/-- A controller that always requests more samples. -/
def adAlways : ℕ → AdaptiveResult := fun _ => ⟨true, false⟩

/-- A controller result for a pixel that stopped in an earlier frame: no
edge-triggered convergence signal, sampling not needed. -/
def adStopped : ℕ → AdaptiveResult := fun _ => ⟨false, false⟩

/-- A bounce loop producing black, valid samples. -/
def blZero : ℕ → ℕ → SampleOutcome := fun _ _ => ⟨⟨0, 0, 0⟩, false, ⟨0, 0, 0⟩, ⟨0, 0, 0⟩⟩

/-- A trivial stand-in for `hippt::length`. -/
def lenZero : Float3 → ℚ := fun _ => 0

/-- `defaultRS` in low-resolution mode with scaling factor 4. -/
def lowResRS : RenderSettings := { defaultRS with render_low_resolution := true }

/-- C3: with `freeze_random` the per-pixel seed is `wang_hash(pixel_index+1)`
and does not depend on `sample_number`; otherwise it is
`wang_hash((pixel_index+1) * (sample_number+1))` in `unsigned int`
arithmetic; and two runs of the kernel on identical settings and buffers
produce identical output. -/
theorem seed_derivation_and_determinism :
    (∀ (rs : RenderSettings) (pi : ℕ), rs.freeze_random = true →
      kernelSeed rs pi = wang_hash ((pi + 1) % UINT32_MOD)) ∧
    (∀ (rs : RenderSettings) (pi sn' : ℕ), rs.freeze_random = true →
      kernelSeed rs pi = kernelSeed { rs with sample_number := sn' } pi) ∧
    (∀ (rs : RenderSettings) (pi : ℕ), rs.freeze_random = false →
      kernelSeed rs pi = wang_hash ((pi + 1) * (rs.sample_number + 1) % UINT32_MOD)) ∧
    (∀ (rs : RenderSettings) (res : Int2) (x y : ℕ) (ad : ℕ → AdaptiveResult)
      (bl : ℕ → ℕ → SampleOutcome) (len : Float3 → ℚ) (b : Buffers),
      PathTracerKernel rs res x y ad bl len b = PathTracerKernel rs res x y ad bl len b) := by
  refine ⟨?_, ?_, ?_, ?_⟩
  · intro rs pi h
    rw [kernelSeed, if_pos h]
  · intro rs pi sn' h
    rw [kernelSeed, if_pos h, kernelSeed, if_pos h]
  · intro rs pi h
    rw [kernelSeed, if_neg (by rw [h]; exact Bool.false_ne_true)]
  · intro rs res x y ad bl len b
    rfl

/-- Witness for C3 at pixel index 5 and sample numbers 7 and 42. -/
theorem seed_derivation_and_determinism_witness :
    kernelSeed frozenRS 5 = wang_hash ((5 + 1) % UINT32_MOD) ∧
    kernelSeed frozenRS 5 = kernelSeed { frozenRS with sample_number := 42 } 5 ∧
    kernelSeed defaultRS 5 = wang_hash ((5 + 1) * (defaultRS.sample_number + 1) % UINT32_MOD) ∧
    PathTracerKernel defaultRS ⟨2, 2⟩ 0 0 adAlways blZero lenZero trivialBuffers =
      PathTracerKernel defaultRS ⟨2, 2⟩ 0 0 adAlways blZero lenZero trivialBuffers :=
  ⟨seed_derivation_and_determinism.1 frozenRS 5 rfl,
   seed_derivation_and_determinism.2.1 frozenRS 5 42 rfl,
   seed_derivation_and_determinism.2.2.1 defaultRS 5 rfl,
   seed_derivation_and_determinism.2.2.2 defaultRS ⟨2, 2⟩ 0 0 adAlways blZero lenZero
     trivialBuffers⟩

/-- A thread that passes the bounds guard and the low-resolution skip always
addresses the pixel index computed by the kernel, whatever the controller
and the sample loop decide. -/
theorem PathTracerKernel_reaches_pixel (rs : RenderSettings) (res : Int2) (x y : ℕ)
    (ad : ℕ → AdaptiveResult) (bl : ℕ → ℕ → SampleOutcome) (len : Float3 → ℚ)
    (b : Buffers)
    (hb : x + y * res.x < res.x * res.y)
    (hskip : lowResSkip rs x y = false) :
    (PathTracerKernel rs res x y ad bl len b).pixel_index =
      some (kernelPixelIndex rs res x y) ∧
    (PathTracerKernel rs res x y ad bl len b).exit ≠ .out_of_bounds ∧
    (PathTracerKernel rs res x y ad bl len b).exit ≠ .low_res_skip := by
  cases hns : (ad (kernelPixelIndex rs res x y)).sampling_needed with
  | false =>
    have h := PathTracerKernel_stopped_spec rs res x y ad bl len b _ _ _ _
      hb hskip rfl rfl rfl hns rfl
    exact ⟨h.2.1, by simp [h.1], by simp [h.1]⟩
  | true =>
    cases hloop : runSampleLoop
        (bl (kernelSeed (effectiveSettings rs) (kernelPixelIndex rs res x y))) 0
        (effectiveSettings rs).samples_per_frame initLoopAcc with
    | error j =>
      have h := PathTracerKernel_aborted_spec rs res x y ad bl len b _ _ _ _ j
        hb hskip rfl rfl rfl hns hloop rfl
      exact ⟨h.2.1, by simp [h.1], by simp [h.1]⟩
    | ok acc =>
      have h := PathTracerKernel_completed_spec rs res x y ad bl len b _ _ _ _ acc
        hb hskip rfl rfl rfl hns hloop rfl
      exact ⟨h.2.1, by simp [h.1], by simp [h.1]⟩

/-- C10: the kernel's out-of-range guard tests only the linear index — a
thread returns untouched exactly when `x + y * res.x ≥ res.x * res.y`; a
thread with `x ≥ res.x` whose linear index is still in range is not skipped,
addresses pixel `x + y * res.x`, and that slot is shared with a different
in-range pixel coordinate. -/
theorem bounds_guard_linear_index :
    (∀ (rs : RenderSettings) (res : Int2) (x y : ℕ) (ad : ℕ → AdaptiveResult)
      (bl : ℕ → ℕ → SampleOutcome) (len : Float3 → ℚ) (b : Buffers),
      ((PathTracerKernel rs res x y ad bl len b).exit = .out_of_bounds ↔
        res.x * res.y ≤ x + y * res.x) ∧
      ((PathTracerKernel rs res x y ad bl len b).exit = .out_of_bounds →
        (PathTracerKernel rs res x y ad bl len b).state = b)) ∧
    (∀ (rs : RenderSettings) (res : Int2) (x y : ℕ) (ad : ℕ → AdaptiveResult)
      (bl : ℕ → ℕ → SampleOutcome) (len : Float3 → ℚ) (b : Buffers),
      rs.render_low_resolution = false → res.x ≤ x →
      x + y * res.x < res.x * res.y →
      (PathTracerKernel rs res x y ad bl len b).pixel_index = some (x + y * res.x) ∧
      ∃ x' y', x' < res.x ∧ y' < res.y ∧ x' + y' * res.x = x + y * res.x ∧ x' ≠ x) := by
  constructor
  · intro rs res x y ad bl len b
    refine ⟨PathTracerKernel_exit_out_of_bounds_iff rs res x y ad bl len b, ?_⟩
    intro h
    have hb := (PathTracerKernel_exit_out_of_bounds_iff rs res x y ad bl len b).mp h
    exact (PathTracerKernel_out_of_bounds_spec rs res x y ad bl len b _ hb rfl).2.1
  · intro rs res x y ad bl len b hlr hx hb
    have hskip : lowResSkip rs x y = false := by
      rw [lowResSkip, hlr]
      rfl
    have hrx : 0 < res.x := by
      rcases Nat.eq_zero_or_pos res.x with h0 | h0
      · rw [h0] at hb
        simp at hb
      · exact h0
    have hidx : kernelPixelIndex rs res x y = x + y * res.x := by
      rw [kernelPixelIndex, hlr]
      rfl
    constructor
    · have h := (PathTracerKernel_reaches_pixel rs res x y ad bl len b hb hskip).1
      rw [h, hidx]
    · refine ⟨(x + y * res.x) % res.x, (x + y * res.x) / res.x,
        Nat.mod_lt _ hrx, Nat.div_lt_of_lt_mul hb, Nat.mod_add_div' _ _, ?_⟩
      exact Nat.ne_of_lt (Nat.lt_of_lt_of_le (Nat.mod_lt _ hrx) hx)

/-- Witness for C10: a 2×2 image and the thread at `(x, y) = (2, 0)` whose
linear index 2 is in range; it addresses pixel 2, the slot of the in-range
coordinate `(0, 1)`. -/
theorem bounds_guard_linear_index_witness :
    ((PathTracerKernel defaultRS ⟨2, 2⟩ 2 0 adAlways blZero lenZero trivialBuffers).exit =
        .out_of_bounds ↔ 2 * 2 ≤ 2 + 0 * 2) ∧
    (PathTracerKernel defaultRS ⟨2, 2⟩ 2 0 adAlways blZero lenZero
        trivialBuffers).pixel_index = some (2 + 0 * 2) ∧
    ∃ x' y', x' < 2 ∧ y' < 2 ∧ x' + y' * 2 = 2 + 0 * 2 ∧ x' ≠ 2 :=
  ⟨(bounds_guard_linear_index.1 defaultRS ⟨2, 2⟩ 2 0 adAlways blZero lenZero
      trivialBuffers).1,
   (bounds_guard_linear_index.2 defaultRS ⟨2, 2⟩ 2 0 adAlways blZero lenZero trivialBuffers
      rfl (by decide) (by decide)).1,
   (bounds_guard_linear_index.2 defaultRS ⟨2, 2⟩ 2 0 adAlways blZero lenZero trivialBuffers
      rfl (by decide) (by decide)).2⟩

/-- C7: in low-resolution mode the frame's settings are forced to 3 bounces
and one sample per frame; an in-range thread is skipped exactly when one of
its coordinates is not a multiple of the scaling factor, so exactly one
thread per `scaling × scaling` block survives (the one at the block's
origin). -/
theorem low_resolution_spec :
    (∀ rs : RenderSettings, rs.render_low_resolution = true →
      (effectiveSettings rs).nb_bounces = 3 ∧
      (effectiveSettings rs).samples_per_frame = 1) ∧
    (∀ (rs : RenderSettings) (res : Int2) (x y : ℕ) (ad : ℕ → AdaptiveResult)
      (bl : ℕ → ℕ → SampleOutcome) (len : Float3 → ℚ) (b : Buffers),
      rs.render_low_resolution = true → x + y * res.x < res.x * res.y →
      ((PathTracerKernel rs res x y ad bl len b).exit = .low_res_skip ↔
        (x % rs.render_low_resolution_scaling ≠ 0 ∨
         y % rs.render_low_resolution_scaling ≠ 0))) ∧
    (∀ (s a d i j : ℕ), 0 < s → i < s → j < s →
      (((a * s + i) % s = 0 ∧ (d * s + j) % s = 0) ↔ (i = 0 ∧ j = 0))) := by
  refine ⟨?_, ?_, ?_⟩
  · intro rs h
    rw [effectiveSettings, if_pos h]
    exact ⟨rfl, rfl⟩
  · intro rs res x y ad bl len b hlr hb
    constructor
    · intro h
      by_contra hc
      push_neg at hc
      have hskip : lowResSkip rs x y = false := by
        rw [lowResSkip, hlr]
        simp [hc.1, hc.2]
      exact (PathTracerKernel_reaches_pixel rs res x y ad bl len b hb hskip).2.2 h
    · intro hc
      have hskip : lowResSkip rs x y = true := by
        rw [lowResSkip, hlr]
        rcases hc with hc | hc <;> simp [hc]
      exact (PathTracerKernel_low_res_skip_spec rs res x y ad bl len b _ hb hskip rfl).1
  · intro s a d i j hs hi hj
    rw [Nat.mul_comm a s, Nat.mul_comm d s, Nat.mul_add_mod, Nat.mul_add_mod,
      Nat.mod_eq_of_lt hi, Nat.mod_eq_of_lt hj]

/-- Witness for C7: scaling factor 4, the in-range thread `(5, 0)` of an
8×8 dispatch is skipped (5 is not a multiple of 4), and within the block at
block coordinates `(1, 1)` only the offset `(0, 0)` survives. -/
theorem low_resolution_spec_witness :
    (effectiveSettings lowResRS).nb_bounces = 3 ∧
    (effectiveSettings lowResRS).samples_per_frame = 1 ∧
    ((PathTracerKernel lowResRS ⟨8, 8⟩ 5 0 adAlways blZero lenZero trivialBuffers).exit =
        .low_res_skip ↔ (5 % 4 ≠ 0 ∨ 0 % 4 ≠ 0)) ∧
    (((1 * 4 + 0) % 4 = 0 ∧ (1 * 4 + 0) % 4 = 0) ↔ ((0 : ℕ) = 0 ∧ (0 : ℕ) = 0)) :=
  ⟨(low_resolution_spec.1 lowResRS rfl).1,
   (low_resolution_spec.1 lowResRS rfl).2,
   low_resolution_spec.2.1 lowResRS ⟨8, 8⟩ 5 0 adAlways blZero lenZero trivialBuffers
     rfl (by decide),
   low_resolution_spec.2.2 4 1 1 0 0 (by decide) (by decide) (by decide)⟩

/-- A renderer state with nonzero counters, status values and buffer sizes. -/
def sampleRendererSettings : RenderSettings :=
  { defaultRS with sample_number := 128, frame_number := 64, samples_per_frame := 7 }

/-- A renderer state with nonzero counters, status values and buffer sizes. -/
def sampleRendererState : GPURendererState :=
  { render_settings := sampleRendererSettings,
    status_buffers_values := { one_ray_active := false, pixel_converged_count := 33 },
    last_frame_time := 16, framebuffer_elems := 10000,
    denoised_framebuffer_elems := 10000, normals_aov_elems := 10000,
    albedo_aov_elems := 10000, pixels_sample_count_elems := 10000,
    pixels_squared_luminance_elems := 10000 }

/-- Counterexample for C8: `reset()` sets `samples_per_frame` to one, not
zero. -/
theorem renderer_reset_samples_per_frame_cx :
    (GPURenderer.reset sampleRendererState).render_settings.samples_per_frame = 1 ∧
    (GPURenderer.reset sampleRendererState).render_settings.samples_per_frame ≠ 0 := by
  decide

/-- C8 (amended): `reset()` zeroes `sample_number` and `frame_number`, sets
`samples_per_frame` to one, zeroes the last-frame time, puts the two status
scalars back to their reset values (`one_ray_active = true`, converged count
zero), and leaves every buffer's element count unchanged — nothing is
allocated, freed or resized. -/
theorem renderer_reset_spec (s : GPURendererState) :
    (GPURenderer.reset s).render_settings =
      { s.render_settings with sample_number := 0, frame_number := 0, samples_per_frame := 1 } ∧
    (GPURenderer.reset s).status_buffers_values =
      { one_ray_active := true, pixel_converged_count := 0 } ∧
    (GPURenderer.reset s).last_frame_time = 0 ∧
    (GPURenderer.reset s).framebuffer_elems = s.framebuffer_elems ∧
    (GPURenderer.reset s).denoised_framebuffer_elems = s.denoised_framebuffer_elems ∧
    (GPURenderer.reset s).normals_aov_elems = s.normals_aov_elems ∧
    (GPURenderer.reset s).albedo_aov_elems = s.albedo_aov_elems ∧
    (GPURenderer.reset s).pixels_sample_count_elems = s.pixels_sample_count_elems ∧
    (GPURenderer.reset s).pixels_squared_luminance_elems =
      s.pixels_squared_luminance_elems :=
  ⟨rfl, rfl, rfl, rfl, rfl, rfl, rfl, rfl, rfl⟩

/-- `defaultRS` after ten accumulated samples. -/
def rs10 : RenderSettings := { defaultRS with sample_number := 10 }

/-- Counterexample for C9: a pixel that merely remains in the stopped state
(no edge-triggered convergence signal, `pixel_converged = false`,
`sampling_needed = false`) still increments the global converged counter by
one this frame. -/
theorem converged_counter_repeat_cx :
    (adStopped 0).pixel_converged = false ∧
    (adStopped 0).sampling_needed = false ∧
    (PathTracerKernel rs10 ⟨1, 1⟩ 0 0 adStopped blZero lenZero
      trivialBuffers).converged_inc = 1 := by
  decide

/-- C9 (amended): the kernel increments the converged counter whenever the
controller flags the pixel converged or reports sampling not needed — once
per frame for every stopped pixel, not only on the edge-triggered signal;
the orchestrator clears the device counter before each frame, so it counts
currently-stopped pixels per frame. -/
theorem converged_counter_per_frame :
    (∀ (rs : RenderSettings) (res : Int2) (x y : ℕ) (ad : ℕ → AdaptiveResult)
      (bl : ℕ → ℕ → SampleOutcome) (len : Float3 → ℚ) (b : Buffers),
      x + y * res.x < res.x * res.y → lowResSkip rs x y = false →
      (PathTracerKernel rs res x y ad bl len b).converged_inc =
        (if (ad (kernelPixelIndex rs res x y)).pixel_converged = true ∨
            (ad (kernelPixelIndex rs res x y)).sampling_needed = false then 1 else 0)) ∧
    (∀ d : DeviceStatusBuffers,
      (internal_update_clear_device_status_buffers d).pixels_converged_count = 0) := by
  constructor
  · intro rs res x y ad bl len b hb hskip
    cases hns : (ad (kernelPixelIndex rs res x y)).sampling_needed with
    | false =>
      have h := PathTracerKernel_stopped_spec rs res x y ad bl len b _ _ _ _
        hb hskip rfl rfl rfl hns rfl
      rw [h.2.2.2.1, if_pos (Or.inr rfl)]
    | true =>
      cases hloop : runSampleLoop
          (bl (kernelSeed (effectiveSettings rs) (kernelPixelIndex rs res x y))) 0
          (effectiveSettings rs).samples_per_frame initLoopAcc with
      | error j =>
        have h := PathTracerKernel_aborted_spec rs res x y ad bl len b _ _ _ _ j
          hb hskip rfl rfl rfl hns hloop rfl
        rw [h.2.2.2.1]
        by_cases hc : (ad (kernelPixelIndex rs res x y)).pixel_converged = true
        · simp [hc]
        · simp [hc]
      | ok acc =>
        have h := PathTracerKernel_completed_spec rs res x y ad bl len b _ _ _ _ acc
          hb hskip rfl rfl rfl hns hloop rfl
        rw [h.2.2.2.1]
        by_cases hc : (ad (kernelPixelIndex rs res x y)).pixel_converged = true
        · simp [hc]
        · simp [hc]
  · intro d
    rfl

/-- Witness for C9 (amended): a stopped pixel of a 1×1 dispatch increments
the counter; the orchestrator's per-frame clear yields zero. -/
theorem converged_counter_per_frame_witness :
    (PathTracerKernel rs10 ⟨1, 1⟩ 0 0 adAlways blZero lenZero
        trivialBuffers).converged_inc =
      (if (adAlways (kernelPixelIndex rs10 ⟨1, 1⟩ 0 0)).pixel_converged = true ∨
          (adAlways (kernelPixelIndex rs10 ⟨1, 1⟩ 0 0)).sampling_needed = false
        then 1 else 0) ∧
    (internal_update_clear_device_status_buffers ⟨true, 55⟩).pixels_converged_count = 0 :=
  ⟨converged_counter_per_frame.1 rs10 ⟨1, 1⟩ 0 0 adAlways blZero lenZero trivialBuffers
      (by decide) (by decide),
   converged_counter_per_frame.2 ⟨true, 55⟩⟩

/-- `defaultRS` after one accumulated sample. -/
def rs1 : RenderSettings := { defaultRS with sample_number := 1 }

/-- `defaultRS` with adaptive sampling enabled (first sample). -/
def adaptiveRS : RenderSettings := { defaultRS with enable_adaptive_sampling := true }

/-- Buffers whose framebuffer holds the color `(2, 2, 2)` everywhere. -/
def bufs2 : Buffers := { trivialBuffers with pixels := fun _ => ⟨2, 2, 2⟩ }

/-- Counterexample for C2: with `sample_number = 1`, `samples_per_frame = 1`
and a stored color `(2,2,2)`, the kernel's rescale of a stopped pixel
produces `(4,4,4)` — it divides by `sample_number` and multiplies by the new
total — and not the `(1,1,1)` that the claimed "multiply by sample_number,
divide by the new total" would produce. -/
theorem stopped_rescale_direction_cx :
    (PathTracerKernel rs1 ⟨1, 1⟩ 0 0 adStopped blZero lenZero bufs2).state.pixels 0 =
      ⟨4, 4, 4⟩ ∧
    ((bufs2.pixels 0).scale ((rs1.sample_number : ℚ))).divQ
        ((rs1.sample_number : ℚ) + (rs1.samples_per_frame : ℚ)) = ⟨1, 1, 1⟩ ∧
    (⟨4, 4, 4⟩ : ColorRGB32F) ≠ ⟨1, 1, 1⟩ := by
  have h := (PathTracerKernel_stopped_spec rs1 ⟨1, 1⟩ 0 0 adStopped blZero lenZero bufs2
    _ _ _ _ (by decide) (by decide) rfl rfl rfl rfl rfl).2.2.2.2.1
  have h0 : kernelPixelIndex rs1 ⟨1, 1⟩ 0 0 = 0 := rfl
  rw [h0] at h
  refine ⟨?_, ?_, by decide⟩
  · rw [h]
    show ((bufs2.pixels 0).divQ ((1 : ℕ) : ℚ)).scale (((1 : ℕ) : ℚ) + ((1 : ℕ) : ℚ)) =
      ⟨4, 4, 4⟩
    rw [bufs2]
    show ((⟨2, 2, 2⟩ : ColorRGB32F).divQ ((1 : ℕ) : ℚ)).scale (((1 : ℕ) : ℚ) + ((1 : ℕ) : ℚ)) =
      ⟨4, 4, 4⟩
    ext <;> norm_num [ColorRGB32F.divQ, ColorRGB32F.scale]
  · show ((⟨2, 2, 2⟩ : ColorRGB32F).scale (((1 : ℕ) : ℚ))).divQ
        (((1 : ℕ) : ℚ) + ((1 : ℕ) : ℚ)) = ⟨1, 1, 1⟩
    ext <;> norm_num [ColorRGB32F.divQ, ColorRGB32F.scale]

/-- C2 (amended): when the Adaptive Sampling Controller flags a pixel
converged or reports sampling not needed (the edge-triggered converged flag
implying not-needed, §4.2), the kernel rescales that pixel's stored color by
dividing it by `sample_number` and multiplying it by the new total
`sample_number + samples_per_frame`, increments the global converged
counter, and returns without tracing any rays this frame. -/
theorem stopped_pixel_rescale (rs : RenderSettings) (res : Int2) (x y : ℕ)
    (ad : ℕ → AdaptiveResult) (bl : ℕ → ℕ → SampleOutcome) (len : Float3 → ℚ)
    (b : Buffers)
    (hb : x + y * res.x < res.x * res.y)
    (hskip : lowResSkip rs x y = false)
    (hedge : (ad (kernelPixelIndex rs res x y)).pixel_converged = true →
      (ad (kernelPixelIndex rs res x y)).sampling_needed = false)
    (hstop : (ad (kernelPixelIndex rs res x y)).pixel_converged = true ∨
      (ad (kernelPixelIndex rs res x y)).sampling_needed = false) :
    (PathTracerKernel rs res x y ad bl len b).exit = .stopped ∧
    (PathTracerKernel rs res x y ad bl len b).samples_traced = 0 ∧
    (PathTracerKernel rs res x y ad bl len b).converged_inc = 1 ∧
    (PathTracerKernel rs res x y ad bl len b).state.pixels
        (kernelPixelIndex rs res x y) =
      (((resetIfFirstSample (effectiveSettings rs) (kernelPixelIndex rs res x y)
            b).pixels (kernelPixelIndex rs res x y)).divQ
          ((effectiveSettings rs).sample_number : ℚ)).scale
        (((effectiveSettings rs).sample_number : ℚ) +
          ((effectiveSettings rs).samples_per_frame : ℚ)) := by
  have hns : (ad (kernelPixelIndex rs res x y)).sampling_needed = false := by
    rcases hstop with hc | hc
    · exact hedge hc
    · exact hc
  have h := PathTracerKernel_stopped_spec rs res x y ad bl len b _ _ _ _
    hb hskip rfl rfl rfl hns rfl
  exact ⟨h.1, h.2.2.1, h.2.2.2.1, h.2.2.2.2.1⟩

/-- Witness for C2 (amended) on a 1×1 dispatch with one accumulated sample
and a stopped pixel. -/
theorem stopped_pixel_rescale_witness :
    (PathTracerKernel rs1 ⟨1, 1⟩ 0 0 adStopped blZero lenZero bufs2).exit = .stopped ∧
    (PathTracerKernel rs1 ⟨1, 1⟩ 0 0 adStopped blZero lenZero bufs2).samples_traced = 0 ∧
    (PathTracerKernel rs1 ⟨1, 1⟩ 0 0 adStopped blZero lenZero bufs2).converged_inc = 1 ∧
    (PathTracerKernel rs1 ⟨1, 1⟩ 0 0 adStopped blZero lenZero bufs2).state.pixels
        (kernelPixelIndex rs1 ⟨1, 1⟩ 0 0) =
      (((resetIfFirstSample (effectiveSettings rs1) (kernelPixelIndex rs1 ⟨1, 1⟩ 0 0)
            bufs2).pixels (kernelPixelIndex rs1 ⟨1, 1⟩ 0 0)).divQ
          ((effectiveSettings rs1).sample_number : ℚ)).scale
        (((effectiveSettings rs1).sample_number : ℚ) +
          ((effectiveSettings rs1).samples_per_frame : ℚ)) :=
  stopped_pixel_rescale rs1 ⟨1, 1⟩ 0 0 adStopped blZero lenZero bufs2
    (by decide) (by decide) (fun _ => rfl) (Or.inr rfl)

/-- Counterexample for C4: `reset_render` sets the denoiser normal AOV entry
to `(1, 1, 1)`, not to zero. -/
theorem reset_normal_not_zero_cx :
    (reset_render defaultRS 0 trivialBuffers).denoiser_normals 0 = ⟨1, 1, 1⟩ ∧
    (reset_render defaultRS 0 trivialBuffers).denoiser_normals 0 ≠ ⟨0, 0, 0⟩ := by
  decide

/-- C4 (amended): on `sample_number == 0` the kernel lazily resets the
pixel's state before any sampling: the color buffer entry and the denoiser
albedo entry are zeroed, the denoiser normal entry is set to `(1, 1, 1)`
(not zero), and — when the adaptive-sampling buffers are accessible — the
per-pixel sample count and squared luminance are zeroed; with
`sample_number != 0` nothing is reset. -/
theorem reset_render_first_sample_spec :
    (∀ (rs : RenderSettings) (idx : ℕ) (b : Buffers),
      (reset_render rs idx b).pixels idx = ⟨0, 0, 0⟩ ∧
      (reset_render rs idx b).denoiser_normals idx = ⟨1, 1, 1⟩ ∧
      (reset_render rs idx b).denoiser_albedo idx = ⟨0, 0, 0⟩ ∧
      (rs.has_access_to_adaptive_sampling_buffers = true →
        (reset_render rs idx b).pixel_sample_count idx = 0 ∧
        (reset_render rs idx b).pixel_squared_luminance idx = 0) ∧
      (rs.has_access_to_adaptive_sampling_buffers = false →
        (reset_render rs idx b).pixel_sample_count = b.pixel_sample_count ∧
        (reset_render rs idx b).pixel_squared_luminance = b.pixel_squared_luminance)) ∧
    (∀ (rs : RenderSettings) (idx : ℕ) (b : Buffers), rs.sample_number = 0 →
      resetIfFirstSample rs idx b = reset_render rs idx b) ∧
    (∀ (rs : RenderSettings) (idx : ℕ) (b : Buffers), rs.sample_number ≠ 0 →
      resetIfFirstSample rs idx b = b) := by
  refine ⟨?_, ?_, ?_⟩
  · intro rs idx b
    refine ⟨?_, ?_, ?_, ?_, ?_⟩
    · simp only [reset_render]
      split <;> simp
    · simp only [reset_render]
      split <;> simp
    · simp only [reset_render]
      split <;> simp
    · intro hacc
      simp only [reset_render, hacc, if_true, Function.update_same]
      exact ⟨by trivial, by trivial⟩
    · intro hacc
      simp only [reset_render, hacc, Bool.false_eq_true, if_false]
      exact ⟨by trivial, by trivial⟩
  · intro rs idx b h
    rw [resetIfFirstSample, if_pos h]
  · intro rs idx b h
    rw [resetIfFirstSample, if_neg h]

/-- Witness for C4 (amended) at pixel 3 with adaptive-sampling buffers
accessible. -/
theorem reset_render_first_sample_spec_witness :
    ((reset_render adaptiveRS 3 bufs2).pixels 3 = ⟨0, 0, 0⟩ ∧
      (reset_render adaptiveRS 3 bufs2).denoiser_normals 3 = ⟨1, 1, 1⟩ ∧
      (reset_render adaptiveRS 3 bufs2).pixel_sample_count 3 = 0 ∧
      (reset_render adaptiveRS 3 bufs2).pixel_squared_luminance 3 = 0) ∧
    resetIfFirstSample adaptiveRS 3 bufs2 = reset_render adaptiveRS 3 bufs2 ∧
    resetIfFirstSample rs1 3 bufs2 = bufs2 :=
  ⟨⟨(reset_render_first_sample_spec.1 adaptiveRS 3 bufs2).1,
    (reset_render_first_sample_spec.1 adaptiveRS 3 bufs2).2.1,
    ((reset_render_first_sample_spec.1 adaptiveRS 3 bufs2).2.2.2.1 rfl).1,
    ((reset_render_first_sample_spec.1 adaptiveRS 3 bufs2).2.2.2.1 rfl).2⟩,
   reset_render_first_sample_spec.2.1 adaptiveRS 3 bufs2 rfl,
   reset_render_first_sample_spec.2.2 rs1 3 bufs2 (by decide)⟩

/-- C6: if sample `j` is the first sample of the frame whose accumulated
radiance fails the sanity check (negative component or NaN), the kernel
stops accumulating at that sample — its contribution is discarded (the
buffers keep their pre-loop contents), or a bright sentinel is written to
the framebuffer when the show-NaNs debug mode is set — and nothing marks the
pixel, so a later frame whose samples are valid completes normally for the
same pixel. -/
theorem sanity_abort_spec (rs : RenderSettings) (res : Int2) (x y : ℕ)
    (ad : ℕ → AdaptiveResult) (bl : ℕ → ℕ → SampleOutcome) (len : Float3 → ℚ)
    (b : Buffers) (j : ℕ)
    (hb : x + y * res.x < res.x * res.y)
    (hskip : lowResSkip rs x y = false)
    (hns : (ad (kernelPixelIndex rs res x y)).sampling_needed = true)
    (hj : j < (effectiveSettings rs).samples_per_frame)
    (hpre : ∀ m, m < j → sanity_check_invalid
      (bl (kernelSeed (effectiveSettings rs) (kernelPixelIndex rs res x y)) m) = false)
    (hbad : sanity_check_invalid
      (bl (kernelSeed (effectiveSettings rs) (kernelPixelIndex rs res x y)) j) = true) :
    (PathTracerKernel rs res x y ad bl len b).exit = .aborted j ∧
    (PathTracerKernel rs res x y ad bl len b).samples_traced = j + 1 ∧
    ((effectiveSettings rs).display_NaNs = false →
      (PathTracerKernel rs res x y ad bl len b).state =
        resetIfFirstSample (effectiveSettings rs) (kernelPixelIndex rs res x y) b) ∧
    ((effectiveSettings rs).display_NaNs = true →
      (PathTracerKernel rs res x y ad bl len b).state.pixels (y * res.x + x) =
        (if (effectiveSettings rs).sample_number = 0 then nan_sentinel_color
         else nan_sentinel_color.scale ((effectiveSettings rs).sample_number : ℚ))) ∧
    (∀ (ad2 : ℕ → AdaptiveResult) (bl2 : ℕ → ℕ → SampleOutcome) (len2 : Float3 → ℚ)
      (rs2 : RenderSettings),
      lowResSkip rs2 x y = false →
      (ad2 (kernelPixelIndex rs2 res x y)).sampling_needed = true →
      (∀ m, m < (effectiveSettings rs2).samples_per_frame →
        sanity_check_invalid (bl2 (kernelSeed (effectiveSettings rs2)
          (kernelPixelIndex rs2 res x y)) m) = false) →
      (PathTracerKernel rs2 res x y ad2 bl2 len2
        (PathTracerKernel rs res x y ad bl len b).state).exit = .completed) := by
  have herr : runSampleLoop
      (bl (kernelSeed (effectiveSettings rs) (kernelPixelIndex rs res x y))) 0
      (effectiveSettings rs).samples_per_frame initLoopAcc = .error j := by
    have := runSampleLoop_error_at
      (bl (kernelSeed (effectiveSettings rs) (kernelPixelIndex rs res x y)))
      (effectiveSettings rs).samples_per_frame j 0 initLoopAcc hj
      (fun m hm => by rw [Nat.zero_add]; exact hpre m hm)
      (by rw [Nat.zero_add]; exact hbad)
    rwa [Nat.zero_add] at this
  have h := PathTracerKernel_aborted_spec rs res x y ad bl len b _ _ _ _ j
    hb hskip rfl rfl rfl hns herr rfl
  refine ⟨h.1, h.2.2.1, ?_, ?_, ?_⟩
  · intro hd
    rw [h.2.2.2.2, if_neg (by rw [hd]; exact Bool.false_ne_true)]
  · intro hd
    rw [h.2.2.2.2, if_pos hd, debug_set_final_color]
    split
    · exact Function.update_same _ _ _
    · exact Function.update_same _ _ _
  · intro ad2 bl2 len2 rs2 hskip2 hns2 hv2
    have hok2 := runSampleLoop_ok_of_valid
      (bl2 (kernelSeed (effectiveSettings rs2) (kernelPixelIndex rs2 res x y)))
      (effectiveSettings rs2).samples_per_frame 0 initLoopAcc
      (fun m hm => by rw [Nat.zero_add]; exact hv2 m hm)
    exact (PathTracerKernel_completed_spec rs2 res x y ad2 bl2 len2
      (PathTracerKernel rs res x y ad bl len b).state _ _ _ _ _
      hb hskip2 rfl rfl rfl hns2 hok2 rfl).1

/-- `defaultRS` with two samples per frame. -/
def rsTwo : RenderSettings := { defaultRS with samples_per_frame := 2 }

/-- A bounce loop whose second sample has a negative radiance component. -/
def blBad : ℕ → ℕ → SampleOutcome := fun _ j =>
  if j = 1 then ⟨⟨-1, 0, 0⟩, false, ⟨0, 0, 0⟩, ⟨0, 0, 0⟩⟩
  else ⟨⟨0, 0, 0⟩, false, ⟨0, 0, 0⟩, ⟨0, 0, 0⟩⟩

/-- Witness for C6: with two samples per frame and an invalid second sample,
the kernel aborts at sample 1 after tracing both, and the same pixel
completes on a later frame with valid samples. -/
theorem sanity_abort_spec_witness :
    (PathTracerKernel rsTwo ⟨1, 1⟩ 0 0 adAlways blBad lenZero trivialBuffers).exit =
      .aborted 1 ∧
    (PathTracerKernel rsTwo ⟨1, 1⟩ 0 0 adAlways blBad lenZero
      trivialBuffers).samples_traced = 1 + 1 ∧
    (PathTracerKernel defaultRS ⟨1, 1⟩ 0 0 adAlways blZero lenZero
      (PathTracerKernel rsTwo ⟨1, 1⟩ 0 0 adAlways blBad lenZero
        trivialBuffers).state).exit = .completed := by
  have H := sanity_abort_spec rsTwo ⟨1, 1⟩ 0 0 adAlways blBad lenZero trivialBuffers 1
    (by decide) (by decide) rfl (by decide)
    (fun m hm => by
      cases m with
      | zero => decide
      | succ k => exact absurd hm (by omega))
    (by decide)
  exact ⟨H.1, H.2.1, H.2.2.2.2 adAlways blZero lenZero defaultRS (by decide) rfl
    (fun m hm => by
      have hspf : (effectiveSettings defaultRS).samples_per_frame = 1 := rfl
      rw [hspf] at hm
      cases m with
      | zero => decide
      | succ k => exact absurd hm (by omega))⟩

/-- Modelled from the spec: a concrete instantiation of the shading terms
for counterexamples.  `GGX_normal_distribution` is the GGX distribution
`alpha^2 / (pi * (NoH^2 (alpha^2 - 1) + 1)^2)` with the positive constant
factor `1/pi` omitted (a positive rescaling, so whether the PDF is zero is
unaffected); the masking-shadowing and Fresnel terms are positive stand-ins
(they do not enter the PDF); `length` returns the exact Euclidean length at
the two points where the counterexamples evaluate it (witnessed by the
`^ 2 = dot` conjuncts in the theorems). -/
def shW : ShadingTerms :=
  { GGX_normal_distribution := fun a x => a ^ 2 / ((x ^ 2 * (a ^ 2 - 1) + 1) ^ 2),
    GGX_smith_masking_shadowing := fun _ _ _ => 1,
    fresnel_schlick := fun f0 _ => f0,
    M_PI := 355 / 113,
    length := fun w => if w = ⟨4, 0, 3⟩ then 5 else if w = ⟨0, 0, -2⟩ then 2 else 0 }

/-- A fully rough dielectric material. -/
def matW : RendererMaterial := { base_color := ⟨1, 1, 1⟩, metallic := 0, roughness := 1 }

/-- Counterexample for C5: with surface normal `(0,0,1)`, view direction
`(4,0,-1)` (so `NoV = -1 ≤ 0`, a degenerate configuration) and light
direction `(0,0,4)`, the halfway vector is `(4/5, 0, 3/5)`; the standalone
PDF evaluation ignores `NoV` and returns `D·NoH/(4·VoH) = 3/52 ≠ 0`. -/
theorem degenerate_pdf_nonzero_cx :
    hippt.dot (⟨0, 0, 1⟩ : Float3) ⟨4, 0, -1⟩ ≤ 0 ∧
    (shW.length ((⟨4, 0, -1⟩ : Float3) + ⟨0, 0, 4⟩)) ^ 2 =
      hippt.dot ((⟨4, 0, -1⟩ : Float3) + ⟨0, 0, 4⟩) ((⟨4, 0, -1⟩ : Float3) + ⟨0, 0, 4⟩) ∧
    0 < shW.length ((⟨4, 0, -1⟩ : Float3) + ⟨0, 0, 4⟩) ∧
    cook_torrance_brdf_pdf shW matW ⟨4, 0, -1⟩ ⟨0, 0, 4⟩ ⟨0, 0, 1⟩ = 3 / 52 ∧
    cook_torrance_brdf_pdf shW matW ⟨4, 0, -1⟩ ⟨0, 0, 4⟩ ⟨0, 0, 1⟩ ≠ 0 := by
  have hadd : ((⟨4, 0, -1⟩ : Float3) + ⟨0, 0, 4⟩) = ⟨4, 0, 3⟩ := by
    show (⟨4 + 0, 0 + 0, -1 + 4⟩ : Float3) = ⟨4, 0, 3⟩
    norm_num
  have hpdf : cook_torrance_brdf_pdf shW matW ⟨4, 0, -1⟩ ⟨0, 0, 4⟩ ⟨0, 0, 1⟩ = 3 / 52 := by
    rw [cook_torrance_brdf_pdf, hippt.normalize, hadd]
    show shW.GGX_normal_distribution (matW.roughness * matW.roughness)
        (max 0 (hippt.dot ⟨0, 0, 1⟩ ((⟨4, 0, 3⟩ : Float3) / shW.length ⟨4, 0, 3⟩))) *
        (max 0 (hippt.dot ⟨0, 0, 1⟩ ((⟨4, 0, 3⟩ : Float3) / shW.length ⟨4, 0, 3⟩))) /
        (4 * max 0 (hippt.dot ⟨4, 0, -1⟩ ((⟨4, 0, 3⟩ : Float3) / shW.length ⟨4, 0, 3⟩))) =
      3 / 52
    have hlen : shW.length ⟨4, 0, 3⟩ = 5 := by
      rw [shW]
      norm_num
    rw [hlen]
    have hdiv : ((⟨4, 0, 3⟩ : Float3) / (5 : ℚ)) = ⟨4 / 5, 0, 3 / 5⟩ := by
      show (⟨4 / 5, 0 / 5, 3 / 5⟩ : Float3) = ⟨4 / 5, 0, 3 / 5⟩
      norm_num
    rw [hdiv]
    have hNoH : hippt.dot (⟨0, 0, 1⟩ : Float3) ⟨4 / 5, 0, 3 / 5⟩ = 3 / 5 := by
      rw [hippt.dot]
      norm_num
    have hVoH : hippt.dot (⟨4, 0, -1⟩ : Float3) ⟨4 / 5, 0, 3 / 5⟩ = 13 / 5 := by
      rw [hippt.dot]
      norm_num
    rw [hNoH, hVoH, max_eq_right (by norm_num : (0 : ℚ) ≤ 3 / 5),
      max_eq_right (by norm_num : (0 : ℚ) ≤ 13 / 5)]
    rw [shW, matW]
    norm_num
  refine ⟨by rw [hippt.dot]; norm_num, ?_, ?_, hpdf, by rw [hpdf]; norm_num⟩
  · rw [hadd, hippt.dot]
    rw [show shW.length ⟨4, 0, 3⟩ = 5 from by rw [shW]; norm_num]
    norm_num
  · rw [hadd, show shW.length ⟨4, 0, 3⟩ = 5 from by rw [shW]; norm_num]
    norm_num

/-- C5 (amended): for every material and every configuration in which any of
NoV, NoL, NoH is not positive, the Cook-Torrance BSDF evaluation returns
exactly zero contribution; the standalone PDF evaluation unconditionally
returns `D·NoH / (4·VoH)` with clamped dot products, and it is zero whenever
`NoH ≤ 0` with `VoH > 0` — but it does not consult NoV or NoL, so it need
not be zero when only those are degenerate. -/
theorem cook_torrance_degenerate_spec :
    (∀ (sh : ShadingTerms) (mat : RendererMaterial) (l v n : Float3),
      (hippt.dot n v ≤ 0 ∨ hippt.dot n l ≤ 0 ∨
        hippt.dot n (hippt.normalize sh.length (v + l)) ≤ 0) →
      cook_torrance_brdf sh mat l v n = ⟨0, 0, 0⟩) ∧
    (∀ (sh : ShadingTerms) (mat : RendererMaterial) (v l n : Float3),
      cook_torrance_brdf_pdf sh mat v l n =
        sh.GGX_normal_distribution (mat.roughness * mat.roughness)
            (max 0 (hippt.dot n (hippt.normalize sh.length (v + l)))) *
          max 0 (hippt.dot n (hippt.normalize sh.length (v + l))) /
          (4 * max 0 (hippt.dot v (hippt.normalize sh.length (v + l))))) ∧
    (∀ (sh : ShadingTerms) (mat : RendererMaterial) (v l n : Float3),
      hippt.dot n (hippt.normalize sh.length (v + l)) ≤ 0 →
      0 < hippt.dot v (hippt.normalize sh.length (v + l)) →
      cook_torrance_brdf_pdf sh mat v l n = 0) := by
  refine ⟨?_, ?_, ?_⟩
  · intro sh mat l v n hdeg
    rw [cook_torrance_brdf]
    rw [if_neg]
    intro hpos
    obtain ⟨h1, h2, h3⟩ := hpos
    rcases hdeg with hd | hd | hd
    · rcases lt_max_iff.mp h1 with h | h
      · exact lt_irrefl 0 h
      · exact absurd h (not_lt.mpr hd)
    · rcases lt_max_iff.mp h2 with h | h
      · exact lt_irrefl 0 h
      · exact absurd h (not_lt.mpr hd)
    · rcases lt_max_iff.mp h3 with h | h
      · exact lt_irrefl 0 h
      · exact absurd h (not_lt.mpr hd)
  · intro sh mat v l n
    rfl
  · intro sh mat v l n hNoH _hVoH
    rw [cook_torrance_brdf_pdf]
    show sh.GGX_normal_distribution _ (max 0 (hippt.dot n (hippt.normalize sh.length (v + l)))) *
        max 0 (hippt.dot n (hippt.normalize sh.length (v + l))) /
        (4 * max 0 (hippt.dot v (hippt.normalize sh.length (v + l)))) = 0
    rw [max_eq_left hNoH, mul_zero, zero_div]

/-- Witness for C5 (amended): the BSDF is zero for a view direction below
the surface (`NoV = -1`), and the PDF is zero for a halfway vector below
the surface (`NoH = -1`) with `VoH = 1 > 0`. -/
theorem cook_torrance_degenerate_spec_witness :
    (hippt.dot (⟨0, 0, 1⟩ : Float3) ⟨4, 0, -1⟩ ≤ 0 ∨
      hippt.dot (⟨0, 0, 1⟩ : Float3) ⟨0, 0, 4⟩ ≤ 0 ∨
      hippt.dot (⟨0, 0, 1⟩ : Float3)
        (hippt.normalize shW.length ((⟨4, 0, -1⟩ : Float3) + ⟨0, 0, 4⟩)) ≤ 0) ∧
    cook_torrance_brdf shW matW ⟨0, 0, 4⟩ ⟨4, 0, -1⟩ ⟨0, 0, 1⟩ = ⟨0, 0, 0⟩ ∧
    hippt.dot (⟨0, 0, 1⟩ : Float3)
      (hippt.normalize shW.length ((⟨0, 0, -1⟩ : Float3) + ⟨0, 0, -1⟩)) ≤ 0 ∧
    0 < hippt.dot (⟨0, 0, -1⟩ : Float3)
      (hippt.normalize shW.length ((⟨0, 0, -1⟩ : Float3) + ⟨0, 0, -1⟩)) ∧
    cook_torrance_brdf_pdf shW matW ⟨0, 0, -1⟩ ⟨0, 0, -1⟩ ⟨0, 0, 1⟩ = 0 := by
  have hNoV : hippt.dot (⟨0, 0, 1⟩ : Float3) ⟨4, 0, -1⟩ ≤ 0 := by
    rw [hippt.dot]
    norm_num
  have hadd2 : ((⟨0, 0, -1⟩ : Float3) + ⟨0, 0, -1⟩) = ⟨0, 0, -2⟩ := by
    show (⟨0 + 0, 0 + 0, -1 + -1⟩ : Float3) = ⟨0, 0, -2⟩
    norm_num
  have hlen2 : shW.length ⟨0, 0, -2⟩ = 2 := by
    rw [shW]
    norm_num
  have hnorm2 : hippt.normalize shW.length ((⟨0, 0, -1⟩ : Float3) + ⟨0, 0, -1⟩) =
      ⟨0, 0, -1⟩ := by
    rw [hippt.normalize, hadd2, hlen2]
    show (⟨0 / 2, 0 / 2, -2 / 2⟩ : Float3) = ⟨0, 0, -1⟩
    norm_num
  have hNoH2 : hippt.dot (⟨0, 0, 1⟩ : Float3)
      (hippt.normalize shW.length ((⟨0, 0, -1⟩ : Float3) + ⟨0, 0, -1⟩)) ≤ 0 := by
    rw [hnorm2, hippt.dot]
    norm_num
  have hVoH2 : 0 < hippt.dot (⟨0, 0, -1⟩ : Float3)
      (hippt.normalize shW.length ((⟨0, 0, -1⟩ : Float3) + ⟨0, 0, -1⟩)) := by
    rw [hnorm2, hippt.dot]
    norm_num
  exact ⟨Or.inl hNoV,
    cook_torrance_degenerate_spec.1 shW matW ⟨0, 0, 4⟩ ⟨4, 0, -1⟩ ⟨0, 0, 1⟩ (Or.inl hNoV),
    hNoH2, hVoH2,
    cook_torrance_degenerate_spec.2.2 shW matW ⟨0, 0, -1⟩ ⟨0, 0, -1⟩ ⟨0, 0, 1⟩ hNoH2 hVoH2⟩
